import Mathlib

/-!
Formal model of the SAX-style MusicXML-to-pianoroll converter
(scoreToPianoroll.py).  The handler state and the three SAX callbacks
(startElement, endElement, characters) are embedded as pure Lean
functions over an explicit state record; Python/NumPy floats are
modelled as rationals, Python exceptions as Except, NumPy arrays as
functions from indices to rationals with explicit NumPy slice
semantics (negative indices wrap, out-of-range slice bounds clamp).
-/

set_option allowUnsafeReducibility true
attribute [semireducible] Rat.add Rat.mul Rat.sub Rat.inv Rat.div

/-- Python int() applied to an exact rational: truncation toward zero. -/
def ratTrunc (x : ℚ) : Int :=
  if 0 ≤ x then ⌊x⌋ else ⌈x⌉

/-- Whitespace characters stripped by the str.strip method. -/
def pyIsSpace (c : Char) : Bool :=
  c == ' ' || c == '\t' || c == '\n' || c == '\r' || c == '\x0b' || c == '\x0c'

/-- Python str.strip(): drop whitespace from both ends, as a char list. -/
def pyStrip (s : String) : List Char :=
  ((s.data.dropWhile pyIsSpace).reverse.dropWhile pyIsSpace).reverse

/-- Decimal value of a digit character, if it is one. -/
def digitVal (c : Char) : Option Nat :=
  if 48 ≤ c.toNat ∧ c.toNat ≤ 57 then some (c.toNat - 48) else none

/-- Accumulate the decimal value of a digit string. -/
def digitsToNat (acc : Nat) : List Char → Option Nat
  | [] => some acc
  | c :: cs =>
    match digitVal c with
    | some d => digitsToNat (acc * 10 + d) cs
    | none => none

/-- NumPy slice-bound resolution for an axis of length n: a negative bound
has n added to it, then the bound is clamped into [0, n]. -/
def resolveIdx (n : Nat) (i : Int) : Nat :=
  (max 0 (min (if i < 0 then i + n else i) (n : Int))).toNat

/-- NumPy single-index resolution for an axis of length n: a negative index
has n added; an index that is still out of range raises IndexError. -/
def pyIndex (n : Nat) (i : Int) : Except String Nat :=
  if 0 ≤ i ∧ i < n then .ok i.toNat
  else if -(n : Int) ≤ i ∧ i < 0 then .ok (i + n).toNat
  else .error "IndexError: index out of bounds"

/-- Python int(str): parse an integer after stripping whitespace, with an
optional leading sign; anything else raises ValueError. -/
def pyInt (str : String) : Except String Int :=
  match pyStrip str with
  | [] => .error "ValueError: invalid literal for int"
  | c :: cs =>
    if c == '-' then
      match cs with
      | [] => .error "ValueError: invalid literal for int"
      | _ =>
        match digitsToNat 0 cs with
        | some n => .ok (-(n : Int))
        | none => .error "ValueError: invalid literal for int"
    else if c == '+' then
      match cs with
      | [] => .error "ValueError: invalid literal for int"
      | _ =>
        match digitsToNat 0 cs with
        | some n => .ok (n : Int)
        | none => .error "ValueError: invalid literal for int"
    else
      match digitsToNat 0 (c :: cs) with
      | some n => .ok (n : Int)
      | none => .error "ValueError: invalid literal for int"

/-- A 2-d NumPy array (time x pitch) modelled as a function. -/
def Mat : Type := Nat → Nat → ℚ

/-- The all-zeros matrix (np.zeros). -/
def matZero : Mat := fun _ _ => 0

/-- NumPy assignment m[a:b, p] = v on a matrix whose first axis has
length n (the second-axis index p is already resolved). -/
def matSetSlice (n : Nat) (a b : Int) (p : Nat) (v : ℚ) (m : Mat) : Mat :=
  fun t q => if q = p ∧ resolveIdx n a ≤ t ∧ t < resolveIdx n b then v else m t q

/-- NumPy assignment d[a:] = v on a 1-d array of length n. -/
def dynSetFrom (n : Nat) (a : Int) (v : ℚ) (d : Nat → ℚ) : Nat → ℚ :=
  fun i => if resolveIdx n a ≤ i ∧ i < n then v else d i

/-- Pointwise update of a 1-d array at an already-resolved index. -/
def dynSetAt (t : Nat) (v : ℚ) (d : Nat → ℚ) : Nat → ℚ :=
  fun i => if i = t then v else d i

/-- Value at position k of np.linspace(a, b, m) (endpoint included):
a + (b - a) * k / (m - 1) for m at least 2, and a when m = 1. -/
def linspaceVal (a b : ℚ) (m k : Nat) : ℚ :=
  if m ≤ 1 then a else a + (b - a) * k / (m - 1)

/-- NumPy assignment d[a:b] = np.linspace(va, vb, b - a) on a 1-d array of
length n: fails when the sample count is negative or when the resolved
slice length differs from the sample count (shape mismatch). -/
def npLinspaceAssign (n : Nat) (a b : Int) (va vb : ℚ) (d : Nat → ℚ) :
    Except String (Nat → ℚ) :=
  let num := b - a
  if num < 0 then .error "ValueError: number of samples must be nonnegative"
  else
    let ra := resolveIdx n a
    let rb := resolveIdx n b
    if ((max ra rb - ra : Nat) : Int) ≠ num then .error "ValueError: shape mismatch"
    else .ok (fun i => if ra ≤ i ∧ i < rb then linspaceVal va vb (rb - ra) (i - ra) else d i)

/-- Python dict assignment d[k] = v for a dict modelled as an association
list: the key has exactly one binding afterwards. -/
def dictSet {α : Type} (k : String) (v : α) (d : List (String × α)) :
    List (String × α) :=
  (k, v) :: d.filter (fun kv => kv.1 != k)

/-- The fixed step-letter-to-semitone table mapping_step_midi; Python dict
access raises KeyError for a missing key, hence Option. -/
def mapping_step_midi (step : String) : Option Int :=
  if step = "C" then some 0
  else if step = "D" then some 2
  else if step = "E" then some 4
  else if step = "F" then some 5
  else if step = "G" then some 7
  else if step = "A" then some 9
  else if step = "B" then some 11
  else none

/-- The dynamics table mapping_dyn_number (ppp .. fff). -/
def mapping_dyn_number (tag : String) : Option ℚ :=
  if tag = "ppp" then some (125/1000)
  else if tag = "pp" then some (258/1000)
  else if tag = "p" then some (383/1000)
  else if tag = "mp" then some (500/1000)
  else if tag = "mf" then some (625/1000)
  else if tag = "f" then some (750/1000)
  else if tag = "ff" then some (875/1000)
  else if tag = "fff" then some (984/1000)
  else none

/-- Python re.match with the pattern written in the source for crescendo
words, namely the literal pattern dollar [cC] r e s dot star.  The dollar
anchor at position 0 matches only at the end of the string or just before
a final newline that is the last character; the rest of the pattern then
still has to match [cC]res at that same position, which would require at
least four further characters.  The two requirements are modelled as the
conjunction below, which is never satisfiable. -/
def re_match_cresc (s : String) : Bool :=
  (s.data = [] || s.data = ['\n']) &&
  (match s.data with
   | c :: tail => (c = 'c' || c = 'C') && tail.take 3 = ['r', 'e', 's']
   | [] => false)

/-- Python re.match with the diminuendo words pattern from the source,
dollar [dD] i m dot star; same dollar-anchor analysis as re_match_cresc. -/
def re_match_dim (s : String) : Bool :=
  (s.data = [] || s.data = ['\n']) &&
  (match s.data with
   | c :: tail => (c = 'd' || c = 'D') && tail.take 2 = ['i', 'm']
   | [] => false)

/-- State of ScoreToPianorollHandler: one field per Python attribute.
The field dyn_flag_is_dict records whether dyn_flag has been replaced by
a dict at part start (before that it is a float array in Python and
writing a string flag into it would raise). -/
structure HState where
  CurrentElement : String
  number_pitches : Nat
  identifier : String
  content : String
  part_instru_mapping : List (String × String)
  time : Int
  division_score : Int
  division_pianoroll : Nat
  beat : Int
  beat_type : Int
  bar_length : Int
  pitch_set : Bool
  step : String
  step_set : Bool
  octave : Int
  octave_set : Bool
  alter : Int
  rest : Bool
  chord : Bool
  duration : Int
  duration_set : Bool
  current_voice : String
  voice_set : Bool
  grace : Bool
  discard_grace : Bool
  total_length : Nat
  pianoroll : List (String × Mat)
  pianoroll_local : Mat
  articulation : List (String × Mat)
  articulation_local : Mat
  tie_type : Option String
  tying : List (String × Bool)
  previous_staccato : Bool
  staccato : Bool
  dynamics : Nat → ℚ
  dyn_flag : Int → Option String
  dyn_flag_is_dict : Bool
  direction_type : Option String
  direction_start : Option Int
  direction_stop : Option Int
  not_played_note : Bool

/-- Length of the time axis of every per-part array. -/
def HState.tLen (s : HState) : Nat :=
  s.total_length * s.division_pianoroll

/-- ScoreToPianorollHandler.__init__. -/
def initState (division total_length : Nat) (number_pitches : Nat)
    (discard_grace : Bool) : HState :=
  { CurrentElement := ""
    number_pitches := number_pitches
    identifier := ""
    content := ""
    part_instru_mapping := []
    time := 0
    division_score := -1
    division_pianoroll := division
    beat := -1
    beat_type := -1
    bar_length := -1
    pitch_set := false
    step := ""
    step_set := false
    octave := 0
    octave_set := false
    alter := 0
    rest := false
    chord := false
    duration := 0
    duration_set := false
    current_voice := ""
    voice_set := false
    grace := false
    discard_grace := discard_grace
    total_length := total_length
    pianoroll := []
    pianoroll_local := matZero
    articulation := []
    articulation_local := matZero
    tie_type := none
    tying := []
    previous_staccato := false
    staccato := false
    dynamics := fun _ => 0
    dyn_flag := fun _ => none
    dyn_flag_is_dict := false
    direction_type := none
    direction_start := none
    direction_stop := none
    not_played_note := false }

/-- Chord branch of startElement, source lines 146 to 150: rewind the
cursor by the previous duration so chord members share a start time; a
chord tag after the duration is an ordering error. -/
def startChord (s : HState) (tag : String) : Except String HState :=
  if tag = "chord" then
    (if s.duration_set then
       Except.error "A chord tag should be placed before the duration tag of the current note"
     else Except.ok { s with time := s.time - s.duration, chord := true })
  else Except.ok s

/-- Part-information branches of startElement (tags score-part, part,
note, rest, chord, grace), source lines 121 to 152. -/
def startPartInfo (s : HState) (tag : String)
    (attrs : List (String × String)) : Except String HState :=
  match (if tag = "score-part" ∨ tag = "part" then
           match attrs.lookup "id" with
           | some v => Except.ok v
           | none => Except.error "KeyError: id"
         else Except.ok s.identifier) with
  | .error e => .error e
  | .ok ident =>
  let s := if tag = "score-part" then { s with identifier := ident } else s
  let s :=
    if tag = "part" then
      { s with identifier := ident
               time := 0
               division_score := -1
               pianoroll_local := matZero
               tie_type := none
               tying := []
               articulation_local := matZero
               dynamics := fun _ => 1/2
               dyn_flag := fun _ => none
               dyn_flag_is_dict := true }
    else s
  let s :=
    if tag = "note" then
      { s with not_played_note := attrs.lookup "print-object" = some "no" }
    else s
  let s := if tag = "rest" then { s with rest := true } else s
  match startChord s tag with
  | .error e => .error e
  | .ok s =>
  .ok (if tag = "grace" then { s with grace := true } else s)

/-- Tie and staccato branches of startElement, source lines 155 to 159. -/
def startTieStaccato (s : HState) (tag : String)
    (attrs : List (String × String)) : Except String HState :=
  match (if tag = "tie" then
           match attrs.lookup "type" with
           | some v => Except.ok (some v)
           | none => Except.error "KeyError: type"
         else Except.ok s.tie_type) with
  | .error e => .error e
  | .ok tt =>
  let s := { s with tie_type := tt }
  .ok (if tag = "staccato" then { s with staccato := true } else s)

/-- Write a flag character into dyn_flag; in Python this is a dict write
after part start and a string-into-float-array error before it. -/
def setDynFlag (s : HState) (k : Int) (v : String) : Except String HState :=
  if s.dyn_flag_is_dict then
    .ok { s with dyn_flag := fun j => if j = k then some v else s.dyn_flag j }
  else .error "ValueError: could not convert string to float"

/-- Dynamics-marking branches of startElement (point markings, sf family,
fp), source lines 163 to 174; tp is the already-computed pianoroll step. -/
def startDynamics (s : HState) (tag : String) (tp : Int) :
    Except String HState :=
  let n := s.tLen
  match mapping_dyn_number tag with
  | some level =>
      match setDynFlag { s with dynamics := dynSetFrom n tp level s.dynamics } tp "N" with
      | .error e => .error e
      | .ok s => .ok s
  | none =>
  if tag = "sf" ∨ tag = "sfz" ∨ tag = "sffz" ∨ tag = "fz" then
    match pyIndex n tp with
    | .error e => .error e
    | .ok k =>
      setDynFlag { s with dynamics := dynSetAt k (984/1000) s.dynamics } tp "N"
  else if tag = "fp" then
    match pyIndex n tp with
    | .error e => .error e
    | .ok k =>
      let s := { s with dynamics := dynSetAt k (750/1000) s.dynamics }
      let s := { s with dynamics := dynSetFrom n (tp + 1) (383/1000) s.dynamics }
      match setDynFlag s tp "N" with
      | .error e => .error e
      | .ok s => setDynFlag s (tp + 1) "N"
  else .ok s

/-- Wedge (hairpin) branch of startElement, source lines 179 to 203. -/
def startWedge (s : HState) (tag : String)
    (attrs : List (String × String)) (tp : Int) : Except String HState :=
  if tag = "wedge" then
    match attrs.lookup "type" with
    | none => .error "KeyError: type"
    | some ty =>
      if ty = "diminuendo" ∨ ty = "crescendo" then
        .ok { s with direction_start := some tp, direction_type := some ty }
      else if ty = "stop" then
        let s := { s with direction_stop := some tp }
        match s.direction_start with
        | none => .error "Stop flag for a direction, but no direction has been started"
        | some ds =>
          let n := s.tLen
          match pyIndex n ds with
          | .error e => .error e
          | .ok dsIdx =>
            let starting_dyn := s.dynamics dsIdx
            match (if s.direction_type = some "crescendo" then
                     let ending_dyn := min (starting_dyn + 1/10) 1
                     (match npLinspaceAssign n ds tp starting_dyn ending_dyn s.dynamics with
                      | .error e => Except.error e
                      | .ok dyn =>
                        match setDynFlag { s with dynamics := dyn } ds "Cresc_start" with
                        | .error e => Except.error e
                        | .ok s => (match setDynFlag s tp "Cresc_stop" with
                                    | .error e => Except.error e
                                    | .ok s => Except.ok (s, ending_dyn)))
                   else if s.direction_type = some "diminuendo" then
                     let ending_dyn := max (starting_dyn - 1/10) 0
                     (match npLinspaceAssign n ds tp starting_dyn ending_dyn s.dynamics with
                      | .error e => Except.error e
                      | .ok dyn =>
                        match setDynFlag { s with dynamics := dyn } ds "Dim_start" with
                        | .error e => Except.error e
                        | .ok s => (match setDynFlag s tp "Dim_stop" with
                                    | .error e => Except.error e
                                    | .ok s => Except.ok (s, ending_dyn)))
                   else Except.error "UnboundLocalError: ending_dyn") with
            | .error e => .error e
            | .ok (s, ending_dyn) =>
              let s := { s with dynamics := dynSetFrom n tp ending_dyn s.dynamics }
              .ok { s with direction_start := none, direction_stop := none }
      else .ok s
  else .ok s

/-- ScoreToPianorollHandler.startElement: sets CurrentElement, then runs
the branch groups in source order; the pianoroll step of the cursor is
computed unconditionally (source line 163), so a zero division ratio
raises there. -/
def startElement (s : HState) (tag : String)
    (attrs : List (String × String)) : Except String HState :=
  let s := { s with CurrentElement := tag }
  match startPartInfo s tag attrs with
  | .error e => .error e
  | .ok s =>
  match startTieStaccato s tag attrs with
  | .error e => .error e
  | .ok s =>
  if s.division_score = 0 then .error "ZeroDivisionError: division by zero"
  else
    let tp := ratTrunc ((s.time * s.division_pianoroll : Int) / (s.division_score : ℚ))
    match startDynamics s tag tp with
    | .error e => .error e
    | .ok s => startWedge s tag attrs tp

/-- Tie, staccato and articulation-write part of the note-end block,
source lines 242 to 270; start_time, end_time and the resolved pitch
column are already computed. -/
def endNoteArtic (s : HState) (start_time end_time : Int) (pcol : Nat) :
    HState :=
  let n := s.tLen
  let voice := if s.voice_set then s.current_voice else "1"
  let s := if s.tying.lookup voice = none then { s with tying := dictSet voice false s.tying } else s
  let s := if s.tie_type = some "start" then { s with tying := dictSet voice true s.tying } else s
  let s := if s.tie_type = some "stop" then { s with tying := dictSet voice false s.tying } else s
  let tie := s.tying.lookup voice = some true
  let s := if s.chord then { s with staccato := s.previous_staccato } else s
  let staccato := s.staccato
  let s := if ¬ tie ∧ ¬ staccato then
      { s with articulation_local := matSetSlice n start_time (end_time - 1) pcol 1 s.articulation_local }
    else s
  let s := if tie then
      { s with articulation_local := matSetSlice n start_time end_time pcol 1 s.articulation_local }
    else s
  if staccato then
    { s with articulation_local := matSetSlice n start_time (start_time + 1) pcol 1 s.articulation_local }
  else s

/-- Matrix-writing part of the note-end block, source lines 229 to 270:
start and end step, pitch resolution, note-on write, then the tie,
staccato and articulation logic. -/
def endNoteWrites (s : HState) : Except String HState :=
  if s.division_score = 0 then
    .error "ZeroDivisionError: division by zero"
  else
    let st0 := ratTrunc ((s.time * s.division_pianoroll : Int) / (s.division_score : ℚ))
    let start_time := if s.grace then st0 - 1 else st0
    let end_time :=
      if s.grace then st0
      else ratTrunc (((s.time + s.duration) * s.division_pianoroll : Int) / (s.division_score : ℚ))
    match mapping_step_midi s.step with
    | none => .error "KeyError: step"
    | some semitone =>
      let midi_pitch := semitone + s.octave * 12 + s.alter
      match pyIndex s.number_pitches midi_pitch with
      | .error e => .error e
      | .ok pcol =>
        let s := { s with pianoroll_local := matSetSlice s.tLen start_time end_time pcol 1 s.pianoroll_local }
        .ok (endNoteArtic s start_time end_time pcol)

/-- Cursor advance and per-note resets of the note-end block, source
lines 272 to 285. -/
def endNoteFinish (s : HState) : HState :=
  let s := if !s.grace && !s.not_played_note then { s with time := s.time + s.duration } else s
  { s with pitch_set := false
           duration_set := false
           alter := 0
           rest := false
           grace := false
           voice_set := false
           tie_type := none
           previous_staccato := s.staccato
           staccato := false
           chord := false }

/-- Note-end block of endElement (source lines 215 to 285): duration
check, pitch check with early return, matrix writes, cursor advance and
per-note resets. -/
def endNote (s : HState) : Except String HState :=
  if !s.duration_set && !s.grace then
    .error "XML misformed, a Duration tag is missing"
  else
    let writes := !s.rest && (!s.grace || !s.discard_grace) && !s.not_played_note
    if writes && !s.pitch_set then
      -- early return after the missing-pitch log: nothing is mutated
      .ok s
    else
      match (if writes then endNoteWrites s else .ok s) with
      | .error e => .error e
      | .ok s => .ok (endNoteFinish s)

/-- Elementwise maximum of two matrices (np.maximum). -/
def matMax (a b : Mat) : Mat := fun t p => max (a t p) (b t p)

/-- Broadcast multiplication of a matrix by a per-time-step envelope,
the transpose-multiply-transpose composition of source lines 312 to 316. -/
def scaleMat (m : Mat) (dyn : Nat → ℚ) : Mat := fun t p => m t p * dyn t

/-- Part-aggregator update of source lines 311 to 316: store the scaled
matrix under the instrument name, max-combining with an existing entry. -/
def mergeInstr (d : List (String × Mat)) (name : String) (m : Mat) :
    List (String × Mat) :=
  match d.lookup name with
  | some old => dictSet name (matMax old m) d
  | none => dictSet name m d

/-- Modelled from the spec: the external dynamics-smoothing collaborator
smooth_dyn lives outside this repository; the spec constrains it only to
return an envelope of identical length over the same steps, so it is
modelled as the identity on the envelope. -/
def smooth_dyn (env : Nat → ℚ) (_flags : Int → Option String)
    (_quantization _horizon : Nat) : Nat → ℚ := env

/-- Part-end block of endElement (source lines 305 to 316). -/
def endPart (s : HState) : Except String HState :=
  match s.part_instru_mapping.lookup s.identifier with
  | none => .error "KeyError: identifier"
  | some instru =>
    let dyn := smooth_dyn s.dynamics s.dyn_flag s.division_pianoroll 4
    .ok { s with
            pianoroll := mergeInstr s.pianoroll instru (scaleMat s.pianoroll_local dyn)
            articulation := mergeInstr s.articulation instru (scaleMat s.articulation_local dyn) }

/-- ScoreToPianorollHandler.endElement. -/
def endElement (s : HState) (tag : String) : Except String HState :=
  let s :=
    if tag = "pitch" then
      let s := if s.octave_set ∧ s.step_set then { s with pitch_set := true } else s
      { s with octave_set := false, step_set := false }
    else s
  match (if tag = "note" then endNote s else .ok s) with
  | .error e => .error e
  | .ok s =>
  match (if tag = "backup" then
           (if ¬ s.duration_set then Except.error "XML Duration not set for a backup"
            else Except.ok { s with time := s.time - s.duration, duration_set := false })
         else Except.ok s) with
  | .error e => .error e
  | .ok s =>
  match (if tag = "forward" then
           (if ¬ s.duration_set then Except.error "XML Duration not set for a forward"
            else Except.ok { s with time := s.time + s.duration, duration_set := false })
         else Except.ok s) with
  | .error e => .error e
  | .ok s =>
  let s :=
    if tag = "part-name" then
      { s with content := ""
               part_instru_mapping := dictSet s.identifier s.content s.part_instru_mapping }
    else s
  if tag = "part" then endPart s else .ok s

/-- Words (free-text direction) branch of characters, source lines
364 to 376, kept with the max and min clamps exactly as in the source;
the branch guard can never hold (see re_match_cresc). -/
def charsWords (s : HState) (content : String) : Except String HState :=
  if re_match_cresc content || re_match_dim content then
    if s.division_score = 0 then .error "ZeroDivisionError: division by zero"
    else
      let t_start := ratTrunc ((s.time * s.division_pianoroll : Int) / (s.division_score : ℚ))
      let t_end := t_start + 4 * s.division_pianoroll
      let n := s.tLen
      match pyIndex n t_start with
      | .error e => .error e
      | .ok k =>
        let start_dyn := s.dynamics k
        if re_match_cresc content then
          match npLinspaceAssign n t_start t_end start_dyn (max (start_dyn + 1/10) 1) s.dynamics with
          | .error e => .error e
          | .ok dyn => .ok { s with dynamics := dyn }
        else
          match npLinspaceAssign n t_start t_end start_dyn (min (start_dyn - 1/10) 0) s.dynamics with
          | .error e => .error e
          | .ok dyn => .ok { s with dynamics := dyn }
  else .ok s

/-- ScoreToPianorollHandler.characters: dispatch on the current element
for non-blank text content. -/
def characters (s : HState) (content : String) : Except String HState :=
  if pyStrip content = [] then .ok s
  else if s.CurrentElement = "divisions" then
    match pyInt content with
    | .error e => .error e
    | .ok v =>
      let s := { s with division_score := v }
      if ¬ s.beat = -1 ∧ ¬ s.beat_type = -1 then
        if s.beat_type = (0 : Int) then .error "ZeroDivisionError: division by zero"
        else .ok { s with bar_length := ratTrunc ((s.division_score * s.beat * 4 : Int) / (s.beat_type : ℚ)) }
      else .ok s
  else if s.CurrentElement = "beats" then
    match pyInt content with
    | .error e => .error e
    | .ok v => .ok { s with beat := v }
  else if s.CurrentElement = "beat-type" then
    match pyInt content with
    | .error e => .error e
    | .ok v =>
      let s := { s with beat_type := v }
      if s.beat = -1 then .error "AssertionError: beat and beat type wrong"
      else if s.division_score = -1 then .error "AssertionError: division non defined"
      else if s.beat_type = (0 : Int) then .error "ZeroDivisionError: division by zero"
      else .ok { s with bar_length := ratTrunc ((s.division_score * s.beat * 4 : Int) / (s.beat_type : ℚ)) }
  else if s.CurrentElement = "duration" then
    match pyInt content with
    | .error e => .error e
    | .ok v =>
      let s := { s with duration := v, duration_set := true }
      if s.rest ∧ s.bar_length < s.duration then .ok { s with duration := s.bar_length }
      else .ok s
  else if s.CurrentElement = "step" then
    .ok { s with step := content, step_set := true }
  else if s.CurrentElement = "octave" then
    match pyInt content with
    | .error e => .error e
    | .ok v => .ok { s with octave := v, octave_set := true }
  else if s.CurrentElement = "alter" then
    if content = "-" then .ok { s with alter := -1 }
    else
      match pyInt content with
      | .error e => .error e
      | .ok v => .ok { s with alter := v }
  else if s.CurrentElement = "voice" then
    .ok { s with current_voice := content, voice_set := true }
  else if s.CurrentElement = "part-name" then
    .ok { s with content := s.content ++ content }
  else if s.CurrentElement = "words" then
    charsWords s content
  else .ok s

/-- One SAX event. -/
inductive XEvent where
  | start (tag : String) (attrs : List (String × String))
  | endE (tag : String)
  | chars (content : String)

/-- Dispatch one event to its handler. -/
def applyEvent (s : HState) : XEvent → Except String HState
  | .start tag attrs => startElement s tag attrs
  | .endE tag => endElement s tag
  | .chars content => characters s content

/-- Run the handler over an ordered event stream. -/
def runEvents (s : HState) : List XEvent → Except String HState
  | [] => .ok s
  | e :: rest =>
    match applyEvent s e with
    | .error m => .error m
    | .ok s => runEvents s rest

/-- The driver scoreToPianoroll (source lines 407 to 437): file handling,
the DOCTYPE pre-processing and the total-length pre-pass are external
collaborators, so the event stream and the pre-computed total length are
parameters; the returned note-on matrices are the stored ones scaled by
128 and cast to int (C-style truncation), the articulation matrices are
returned as stored. -/
def scoreToPianoroll (events : List XEvent) (quantization total_length : Nat) :
    Except String (List (String × (Nat → Nat → Int)) × List (String × Mat)) :=
  match runEvents (initState quantization total_length 128 false) events with
  | .error m => .error m
  | .ok s =>
    .ok (s.pianoroll.map (fun kv => (kv.1, fun t p => ratTrunc (kv.2 t p * 128))),
         s.articulation)

/-! ## Shared helper lemmas -/

theorem re_match_cresc_false (s : String) : re_match_cresc s = false := by
  unfold re_match_cresc
  cases h : s.data with
  | nil => simp
  | cons c tail =>
    simp only [Bool.and_eq_false_iff, Bool.or_eq_false_iff]
    by_cases hc : c :: tail = ['\n']
    · right
      rw [List.cons_eq_cons] at hc
      rcases hc with ⟨hc1, hc2⟩
      subst hc1
      simp
    · left
      constructor
      · simp
      · simpa using hc

theorem re_match_dim_false (s : String) : re_match_dim s = false := by
  unfold re_match_dim
  cases h : s.data with
  | nil => simp
  | cons c tail =>
    simp only [Bool.and_eq_false_iff, Bool.or_eq_false_iff]
    by_cases hc : c :: tail = ['\n']
    · right
      rw [List.cons_eq_cons] at hc
      rcases hc with ⟨hc1, hc2⟩
      subst hc1
      simp
    · left
      constructor
      · simp
      · simpa using hc

/-- The stripped content of a string that pyInt parses is nonempty. -/
theorem pyInt_ok_strip_ne (content : String) (v : Int)
    (h : pyInt content = .ok v) : pyStrip content ≠ [] := by
  intro hnil
  rw [pyInt, hnil] at h
  exact Except.noConfusion h

theorem resolveIdx_zero (n : Nat) : resolveIdx n 0 = 0 := by
  unfold resolveIdx
  simp

theorem resolveIdx_of_nonneg_le (n : Nat) (i : Int) (h0 : 0 ≤ i)
    (hn : i ≤ n) : resolveIdx n i = i.toNat := by
  unfold resolveIdx
  rw [if_neg (by omega), min_eq_left hn, max_eq_right h0]

/-- A slice whose resolved end does not exceed its resolved start writes
nothing. -/
theorem matSetSlice_empty (n : Nat) (a b : Int) (p : Nat) (v : ℚ) (m : Mat)
    (h : resolveIdx n b ≤ resolveIdx n a) : matSetSlice n a b p v m = m := by
  funext t q
  unfold matSetSlice
  rw [if_neg]
  rintro ⟨-, h1, h2⟩
  omega

theorem pyIndex_of_nonneg (n : Nat) (i : Int) (h0 : 0 ≤ i) (hn : i < n) :
    pyIndex n i = .ok i.toNat := by
  unfold pyIndex
  rw [if_pos ⟨h0, hn⟩]

/-- Truncation of a rational that is an integer gives back that integer. -/
theorem ratTrunc_intCast (z : Int) : ratTrunc (z : ℚ) = z := by
  unfold ratTrunc
  by_cases h : (0 : ℚ) ≤ (z : ℚ)
  · rw [if_pos h, Int.floor_intCast]
  · rw [if_neg h, Int.ceil_intCast]

theorem ratTrunc_zero : ratTrunc 0 = 0 := by
  have := ratTrunc_intCast 0
  simpa using this

/-- Monotonicity of the linspace sample values when the endpoints are
ordered. -/
theorem linspaceVal_mono (a b : ℚ) (m k j : Nat) (hab : a ≤ b) (hkj : k ≤ j) :
    linspaceVal a b m k ≤ linspaceVal a b m j := by
  unfold linspaceVal
  by_cases hm : m ≤ 1
  · simp [hm]
  · rw [if_neg hm, if_neg hm]
    have hm1 : (0 : ℚ) < (m : ℚ) - 1 := by
      have h2 : (2 : ℚ) ≤ (m : ℚ) := by exact_mod_cast (by omega : 2 ≤ m)
      linarith
    have hkj2 : (k : ℚ) ≤ (j : ℚ) := by exact_mod_cast hkj
    have hba : (0 : ℚ) ≤ b - a := by linarith
    have h3 : (b - a) * (k : ℚ) / ((m : ℚ) - 1) ≤ (b - a) * (j : ℚ) / ((m : ℚ) - 1) := by
      rw [div_le_div_iff hm1 hm1]
      nlinarith [mul_le_mul_of_nonneg_right (mul_le_mul_of_nonneg_left hkj2 hba) hm1.le]
    linarith

/-- The last sample of a linspace with at least two samples is the right
endpoint. -/
theorem linspaceVal_last (a b : ℚ) (m : Nat) (hm : 2 ≤ m) :
    linspaceVal a b m (m - 1) = b := by
  unfold linspaceVal
  rw [if_neg (by omega)]
  have hm2 : (2 : ℚ) ≤ (m : ℚ) := by exact_mod_cast hm
  have hm1 : ((m : ℚ) - 1) ≠ 0 := by intro h; linarith
  have hcast : ((m - 1 : Nat) : ℚ) = (m : ℚ) - 1 := by
    push_cast [Nat.cast_sub (by omega : (1 : Nat) ≤ m)]
    ring
  rw [hcast]
  field_simp

/-- Every linspace sample with index below the sample count lies between
the endpoints. -/
theorem linspaceVal_bounds (a b : ℚ) (m k : Nat) (hk : k < m) :
    min a b ≤ linspaceVal a b m k ∧ linspaceVal a b m k ≤ max a b := by
  unfold linspaceVal
  by_cases hm : m ≤ 1
  · simp [hm, min_le_left, le_max_left]
  · rw [if_neg hm]
    have hm1 : (0 : ℚ) < (m : ℚ) - 1 := by
      have h2 : (2 : ℚ) ≤ (m : ℚ) := by exact_mod_cast (by omega : 2 ≤ m)
      linarith
    have hk2 : (k : ℚ) ≤ (m : ℚ) - 1 := by
      have h3 : ((k : Int) : ℚ) ≤ (((m - 1 : Nat) : Int) : ℚ) := by
        exact_mod_cast (by omega : (k : Int) ≤ ((m - 1 : Nat) : Int))
      have hcast : (((m - 1 : Nat) : Int) : ℚ) = (m : ℚ) - 1 := by
        push_cast [Nat.cast_sub (by omega : (1 : Nat) ≤ m)]
        ring
      rw [hcast] at h3
      exact_mod_cast h3
    have hk0 : (0 : ℚ) ≤ (k : ℚ) := by positivity
    rcases le_total a b with hab | hab
    · constructor
      · have h4 : (0 : ℚ) ≤ (b - a) * k / (m - 1) :=
          div_nonneg (mul_nonneg (by linarith) hk0) hm1.le
        calc min a b ≤ a := min_le_left a b
        _ ≤ a + (b - a) * k / (m - 1) := by linarith
      · have h4 : (b - a) * k / (m - 1) ≤ (b - a) := by
          rw [div_le_iff hm1]
          nlinarith
        calc a + (b - a) * k / (m - 1) ≤ b := by linarith
        _ ≤ max a b := le_max_right a b
    · constructor
      · have h4 : (b - a) ≤ (b - a) * k / (m - 1) := by
          rw [le_div_iff hm1]
          nlinarith
        calc min a b ≤ b := min_le_right a b
        _ ≤ a + (b - a) * k / (m - 1) := by linarith
      · have h4 : (b - a) * k / (m - 1) ≤ 0 := by
          apply div_nonpos_of_nonpos_of_nonneg ?_ hm1.le
          exact mul_nonpos_of_nonpos_of_nonneg (by linarith) hk0
        calc a + (b - a) * k / (m - 1) ≤ a := by linarith
        _ ≤ max a b := le_max_left a b

/-! ## Concrete event streams used by counterexamples and witnesses -/

/-- A part containing a two-note tie at pitch C4: a half note with
tie type start on steps 0 and 1, then a half note with tie type stop on
steps 2 and 3 (divisions 1, quantization 1, eight steps total). -/
def evTiePair : List XEvent :=
  [ .start "score-part" [("id", "P1")],
    .start "part-name" [],
    .chars "Piano",
    .endE "part-name",
    .start "part" [("id", "P1")],
    .start "divisions" [],
    .chars "1",
    .start "note" [],
    .start "pitch" [],
    .start "step" [], .chars "C", .endE "step",
    .start "octave" [], .chars "4", .endE "octave",
    .endE "pitch",
    .start "duration" [], .chars "2", .endE "duration",
    .start "tie" [("type", "start")], .endE "tie",
    .endE "note",
    .start "note" [],
    .start "pitch" [],
    .start "step" [], .chars "C", .endE "step",
    .start "octave" [], .chars "4", .endE "octave",
    .endE "pitch",
    .start "duration" [], .chars "2", .endE "duration",
    .start "tie" [("type", "stop")], .endE "tie",
    .endE "note" ]

/-- A full part in which an fff marking is followed by a crescendo
hairpin over steps 0 and 1, driving the envelope to exactly 1 from step 1
onward, and a second note sounding on steps 2 and 3. -/
def evFffCresc : List XEvent :=
  [ .start "score-part" [("id", "P1")],
    .start "part-name" [],
    .chars "Piano",
    .endE "part-name",
    .start "part" [("id", "P1")],
    .start "divisions" [],
    .chars "1",
    .start "fff" [], .endE "fff",
    .start "wedge" [("type", "crescendo")], .endE "wedge",
    .start "note" [],
    .start "pitch" [],
    .start "step" [], .chars "C", .endE "step",
    .start "octave" [], .chars "4", .endE "octave",
    .endE "pitch",
    .start "duration" [], .chars "2", .endE "duration",
    .endE "note",
    .start "wedge" [("type", "stop")], .endE "wedge",
    .start "note" [],
    .start "pitch" [],
    .start "step" [], .chars "C", .endE "step",
    .start "octave" [], .chars "4", .endE "octave",
    .endE "pitch",
    .start "duration" [], .chars "2", .endE "duration",
    .endE "note",
    .endE "part" ]

/-- A part in which an sf marking occurs at step 0. -/
def evSfMark : List XEvent :=
  [ .start "score-part" [("id", "P1")],
    .start "part-name" [],
    .chars "Piano",
    .endE "part-name",
    .start "part" [("id", "P1")],
    .start "divisions" [],
    .chars "1",
    .start "sf" [], .endE "sf" ]

/-- A part whose first note (pitch C4, duration 1) is processed before
any divisions element has been seen. -/
def evNoDivisions : List XEvent :=
  [ .start "score-part" [("id", "P1")],
    .start "part-name" [],
    .chars "Piano",
    .endE "part-name",
    .start "part" [("id", "P1")],
    .start "note" [],
    .start "pitch" [],
    .start "step" [], .chars "C", .endE "step",
    .start "octave" [], .chars "4", .endE "octave",
    .endE "pitch",
    .start "duration" [], .chars "1", .endE "duration",
    .endE "note" ]

/-- A part with a one-step crescendo hairpin: start at step 0, one quarter
note, stop at step 1. -/
def evShortCresc : List XEvent :=
  [ .start "score-part" [("id", "P1")],
    .start "part-name" [],
    .chars "Piano",
    .endE "part-name",
    .start "part" [("id", "P1")],
    .start "divisions" [],
    .chars "1",
    .start "wedge" [("type", "crescendo")], .endE "wedge",
    .start "note" [],
    .start "pitch" [],
    .start "step" [], .chars "C", .endE "step",
    .start "octave" [], .chars "4", .endE "octave",
    .endE "pitch",
    .start "duration" [], .chars "1", .endE "duration",
    .endE "note",
    .start "wedge" [("type", "stop")], .endE "wedge" ]

/-! ## Claim C1 -/

/-- C1, counterexample.  In the two-note tie of evTiePair the first note
occupies steps 0 and 1, the second steps 2 and 3 (t0 = 0, t1 = 2, t2 = 4).
The claim asserts articulation[t0:t2, p] = 1 at every step of [t0, t2);
but at step 3 (inside [t0, t2), where the note-on matrix does hold 1) the
articulation matrix holds 0, because the tie-stop note clears the tying
flag before reading it and is therefore written as a plain untied note
over [t1, t2-1). -/
theorem C1_counterexample :
    (match runEvents (initState 1 8 128 false) evTiePair with
     | .ok s => some (s.pianoroll_local 3 48, s.articulation_local 3 48,
                      s.articulation_local 2 48, s.articulation_local 1 48)
     | .error _ => none) = some (1, 0, 1, 1) := by
  decide

/-! ## Claim C4 -/

/-- C4, counterexample.  After evSfMark, whose sf marking is at step 0,
the envelope holds 0.984 at step 0 but is still 0.5 at step 1: the sf
family writes a single step, not the step function envelope[t:] = 0.984
that an fff point marking writes. -/
theorem C4_counterexample :
    (match runEvents (initState 1 8 128 false) evSfMark with
     | .ok s => some (s.dynamics 0, s.dynamics 1)
     | .error _ => none) = some (123/125, 1/2) := by
  decide

/-! ## Claim C5 -/

/-- C5, counterexample.  In evNoDivisions a note duration is converted to
pianoroll steps while division_score still holds its unset sentinel -1;
the claim says the conversion fails fatally and never produces matrices,
but the run succeeds and the note-on matrix has been written (the end
step computes to -1 and the NumPy slice wraps to [0, 7)). -/
theorem C5_counterexample :
    (match runEvents (initState 1 8 128 false) evNoDivisions with
     | .ok s => some (s.pianoroll_local 0 48)
     | .error _ => none) = some 1 := by
  decide

/-! ## Claim C6 -/

/-- C6, counterexample.  In evShortCresc a crescendo hairpin starts at
step s = 0 with envelope level L = 0.5 and stops at step e = 1, so e > s.
The claim says the envelope reaches min(L + 0.1, 1) = 0.6 at the last
step of [s, e), which is step 0; but np.linspace(0.5, 0.6, 1) is the
single point 0.5, so the envelope still holds 0.5 at step 0 (while steps
from e on are filled with 0.6). -/
theorem C6_counterexample :
    (match runEvents (initState 1 8 128 false) evShortCresc with
     | .ok s => some (s.dynamics 0, s.dynamics 1)
     | .error _ => none) = some (1/2, 3/5) := by
  decide

/-! ## Claim C2 -/

/-- C2, counterexample.  Running the full conversion on evFffCresc with
quantization 1 and total length 8, the note-on matrix for Piano holds
128 at step 2, pitch 48: the crescendo hairpin drives the envelope to
exactly 1 there, and int(1 * 128) = 128, outside the claimed range
0 to 127. -/
theorem C2_counterexample :
    (match scoreToPianoroll evFffCresc 1 8 with
     | .ok (pr, _) =>
       (match pr.lookup "Piano" with
        | some m => some (m 2 48)
        | none => none)
     | .error _ => none) = some 128 := by
  decide

/-! ## Claim C3 -/

/-- C3.  The claim says free-text annotations matching a crescendo or
diminuendo pattern interpolate the dynamics envelope; in the code the
two patterns are anchored so that they can never match, so a text event
inside a words element leaves the whole handler state unchanged, for
every content string. -/
theorem C3_words_without_effect (s : HState) (content : String)
    (h : s.CurrentElement = "words") : characters s content = .ok s := by
  unfold characters
  by_cases hb : pyStrip content = []
  · rw [if_pos hb]
  · rw [if_neg hb, h]
    simp only [String.reduceEq, if_false, if_true, reduceIte]
    unfold charsWords
    rw [re_match_cresc_false, re_match_dim_false]
    simp

/-- Concrete instance of the state used to exercise C3. -/
def wordsState : HState :=
  { initState 1 8 128 false with CurrentElement := "words" }

/-- C3, witness: the annotation text cresc inside a words element leaves
the state untouched. -/
theorem C3_words_without_effect_witness :
    characters wordsState "cresc" = .ok wordsState :=
  C3_words_without_effect wordsState "cresc" rfl

/-! ## Claim C9 -/

/-- C9.  At note end, a non-rest, non-discarded, printed note whose pitch
is incomplete makes the handler return early: the whole state is returned
unchanged, so the cursor is not advanced and none of the per-note fields
are reset. -/
theorem C9_incomplete_pitch_early_return (s : HState)
    (hrest : s.rest = false)
    (hgrace : s.grace = false ∨ s.discard_grace = false)
    (hplayed : s.not_played_note = false)
    (hpitch : s.pitch_set = false)
    (hdur : s.duration_set = true ∨ s.grace = true) :
    endElement s "note" = .ok s := by
  unfold endElement
  simp only [String.reduceEq, if_false, reduceIte]
  have hnote : endNote s = .ok s := by
    unfold endNote
    have hd : (!s.duration_set && !s.grace) = false := by
      rcases hdur with h | h <;> simp [h]
    rw [if_neg (by simp [hd])]
    have hw : (!s.rest && (!s.grace || !s.discard_grace) && !s.not_played_note) = true := by
      rcases hgrace with h | h <;> simp [hrest, h, hplayed]
    rw [if_pos (by simp [hw, hpitch])]
  rw [hnote]

/-- Concrete instance of the state used to exercise C9. -/
def c9State : HState :=
  { initState 1 8 128 false with duration_set := true }

/-- C9, witness: a state with a duration but no resolved pitch passes
through note end completely unchanged. -/
theorem C9_incomplete_pitch_early_return_witness :
    endElement c9State "note" = .ok c9State :=
  C9_incomplete_pitch_early_return c9State rfl (Or.inl rfl) rfl rfl (Or.inl rfl)

/-! ## Claim C10 -/

/-- C10.  Text inside a beat-type element that parses as an integer
aborts the conversion with an assertion failure whenever the beats value
or the divisions value has not been seen (both still hold the sentinel
-1): successful processing of beat-type text requires both to be set. -/
theorem C10_beat_type_requires_beats_and_divisions (s : HState)
    (content : String) (v : Int)
    (hc : s.CurrentElement = "beat-type")
    (hparse : pyInt content = .ok v)
    (h : s.beat = -1 ∨ s.division_score = -1) :
    ∃ msg, characters s content = .error msg := by
  unfold characters
  rw [if_neg (pyInt_ok_strip_ne content v hparse), hc]
  simp only [String.reduceEq, if_false, reduceIte]
  rw [hparse]
  dsimp only
  by_cases hb : s.beat = -1
  · rw [if_pos hb]
    exact ⟨_, rfl⟩
  · rw [if_neg hb]
    have hd : s.division_score = -1 := by tauto
    rw [if_pos hd]
    exact ⟨_, rfl⟩

/-- Concrete instance of the state used to exercise C10. -/
def c10State : HState :=
  { initState 1 8 128 false with CurrentElement := "beat-type" }

/-- C10, witness: beat-type text 4 with neither beats nor divisions seen
aborts with an assertion failure. -/
theorem C10_beat_type_requires_beats_and_divisions_witness :
    ∃ msg, characters c10State "4" = .error msg :=
  C10_beat_type_requires_beats_and_divisions c10State "4" 4 rfl rfl (Or.inl rfl)

/-! ## Claim C7 -/

/-- C7.  When two parts are mapped to the same instrument name, the
score-level entry for that instrument is the elementwise maximum of the
two individually dynamics-scaled part matrices, and the entry is the
same whichever part arrives first; this holds for the note-on and the
articulation aggregation alike, which both use mergeInstr on scaleMat
results at part end. -/
theorem C7_merge_max_commutes (d : List (String × Mat)) (name : String)
    (P1 P2 : Mat) (dy1 dy2 : Nat → ℚ)
    (h : d.lookup name = none) (t p : Nat) :
    ∃ M M2,
      (mergeInstr (mergeInstr d name (scaleMat P1 dy1)) name (scaleMat P2 dy2)).lookup name = some M ∧
      (mergeInstr (mergeInstr d name (scaleMat P2 dy2)) name (scaleMat P1 dy1)).lookup name = some M2 ∧
      M t p = max (P1 t p * dy1 t) (P2 t p * dy2 t) ∧
      M2 t p = M t p := by
  have hfirst : ∀ m : Mat, (mergeInstr d name m).lookup name = some m := by
    intro m
    unfold mergeInstr
    rw [h]
    unfold dictSet
    simp [List.lookup]
  have hsecond : ∀ m1 m2 : Mat,
      (mergeInstr (mergeInstr d name m1) name m2).lookup name = some (matMax m1 m2) := by
    intro m1 m2
    have h1 := hfirst m1
    set D := mergeInstr d name m1 with hD
    unfold mergeInstr
    rw [h1]
    dsimp only
    unfold dictSet
    simp [List.lookup]
  refine ⟨matMax (scaleMat P1 dy1) (scaleMat P2 dy2),
          matMax (scaleMat P2 dy2) (scaleMat P1 dy1),
          hsecond _ _, hsecond _ _, rfl, ?_⟩
  unfold matMax scaleMat
  exact max_comm _ _

/-- C7, witness: merging the constant-one matrix scaled by one half with
the zero matrix under the name Piano, in both orders. -/
theorem C7_merge_max_commutes_witness :
    ∃ M M2,
      (mergeInstr (mergeInstr [] "Piano" (scaleMat (fun _ _ => 1) (fun _ => 1/2))) "Piano"
        (scaleMat matZero (fun _ => 1))).lookup "Piano" = some M ∧
      (mergeInstr (mergeInstr [] "Piano" (scaleMat matZero (fun _ => 1))) "Piano"
        (scaleMat (fun _ _ => 1) (fun _ => 1/2))).lookup "Piano" = some M2 ∧
      M 0 0 = max ((fun (_ _ : Nat) => (1 : ℚ)) 0 0 * (1/2 : ℚ)) (matZero 0 0 * 1) ∧
      M2 0 0 = M 0 0 :=
  C7_merge_max_commutes [] "Piano" (fun _ _ => 1) matZero (fun _ => 1/2) (fun _ => 1) rfl 0 0

/-! ## Claim C8 -/

/-- The articulation phase never touches the note-on matrix. -/
theorem endNoteArtic_pianoroll (s : HState) (st en : Int) (p : Nat) :
    (endNoteArtic s st en p).pianoroll_local = s.pianoroll_local := by
  unfold endNoteArtic
  dsimp only
  simp only [apply_ite HState.pianoroll_local, ite_self]

/-- When all three candidate articulation slices resolve to empty ranges,
the articulation phase leaves the articulation matrix unchanged. -/
theorem endNoteArtic_artic_of_empty (s : HState) (st en : Int) (p : Nat)
    (h1 : resolveIdx s.tLen (en - 1) ≤ resolveIdx s.tLen st)
    (h2 : resolveIdx s.tLen en ≤ resolveIdx s.tLen st)
    (h3 : resolveIdx s.tLen (st + 1) ≤ resolveIdx s.tLen st) :
    (endNoteArtic s st en p).articulation_local = s.articulation_local := by
  have e1 : ∀ m, matSetSlice s.tLen st (en - 1) p 1 m = m :=
    fun m => matSetSlice_empty _ _ _ _ _ m h1
  have e2 : ∀ m, matSetSlice s.tLen st en p 1 m = m :=
    fun m => matSetSlice_empty _ _ _ _ _ m h2
  have e3 : ∀ m, matSetSlice s.tLen st (st + 1) p 1 m = m :=
    fun m => matSetSlice_empty _ _ _ _ _ m h3
  unfold endNoteArtic
  dsimp only
  simp only [apply_ite HState.articulation_local, e1, e2, e3, ite_self]

/-- A slice from -1 to 0 writes nothing. -/
theorem matSetSlice_grace_zero (n : Nat) (p : Nat) (v : ℚ) (m : Mat) :
    matSetSlice n (0 - 1) 0 p v m = m :=
  matSetSlice_empty n (0 - 1) 0 p v m (by rw [resolveIdx_zero]; exact Nat.zero_le _)

/-- With start -1 and end 0 the articulation phase writes nothing. -/
theorem endNoteArtic_artic_grace_zero (s : HState) (p : Nat) :
    (endNoteArtic s (0 - 1) 0 p).articulation_local = s.articulation_local := by
  apply endNoteArtic_artic_of_empty
  · exact le_refl _
  · rw [resolveIdx_zero]
    exact Nat.zero_le _
  · have e : ((0 : Int) - 1) + 1 = 0 := by norm_num
    rw [e, resolveIdx_zero]
    exact Nat.zero_le _

/-- The reset phase never touches the note-on matrix. -/
theorem endNoteFinish_pianoroll (s : HState) :
    (endNoteFinish s).pianoroll_local = s.pianoroll_local := by
  unfold endNoteFinish
  dsimp only
  split <;> rfl

/-- The reset phase never touches the articulation matrix. -/
theorem endNoteFinish_artic (s : HState) :
    (endNoteFinish s).articulation_local = s.articulation_local := by
  unfold endNoteFinish
  dsimp only
  split <;> rfl

/-- C8.  A grace note processed while the cursor resolves to step 0
(so start = -1 and end = 0) passes through note end without error and
leaves both the note-on and the articulation matrices completely
unchanged: every slice written resolves to an empty range under NumPy
indexing, so the note contributes nothing, silently. -/
theorem C8_grace_at_step_zero_writes_nothing (s : HState) (m : Int) (p : Nat)
    (hg : s.grace = true) (hdg : s.discard_grace = false)
    (hrest : s.rest = false) (hplayed : s.not_played_note = false)
    (hpitch : s.pitch_set = true)
    (hdiv : ¬ s.division_score = 0)
    (hstep : mapping_step_midi s.step = some m)
    (hcol : pyIndex s.number_pitches (m + s.octave * 12 + s.alter) = .ok p)
    (h0 : ratTrunc ((s.time * s.division_pianoroll : Int) / (s.division_score : ℚ)) = 0) :
    ∃ s', endElement s "note" = .ok s' ∧
      s'.pianoroll_local = s.pianoroll_local ∧
      s'.articulation_local = s.articulation_local := by
  have hinner : ∃ T, endNote s = .ok T ∧
      T.pianoroll_local = s.pianoroll_local ∧
      T.articulation_local = s.articulation_local := by
    unfold endNote
    simp only [hrest, hg, hdg, hplayed, hpitch, Bool.not_true, Bool.not_false,
      Bool.and_false, Bool.false_and, Bool.and_true, Bool.true_and,
      Bool.or_true, Bool.true_or, Bool.or_false, Bool.false_or, reduceIte]
    unfold endNoteWrites
    rw [if_neg hdiv]
    dsimp only
    rw [h0, hstep]
    dsimp only
    rw [hcol]
    dsimp only
    simp only [hg, reduceIte]
    refine ⟨_, rfl, ?_, ?_⟩
    · rw [endNoteFinish_pianoroll, endNoteArtic_pianoroll]
      exact matSetSlice_grace_zero _ _ _ _
    · rw [endNoteFinish_artic, endNoteArtic_artic_grace_zero]
  obtain ⟨T, hT, hT1, hT2⟩ := hinner
  unfold endElement
  simp only [String.reduceEq, reduceIte, hT]
  exact ⟨T, rfl, hT1, hT2⟩

/-- Concrete instance of the state used to exercise C8: a grace note at
pitch C0 with the cursor at 0. -/
def c8State : HState :=
  { initState 1 8 128 false with grace := true, pitch_set := true, step := "C" }

/-- C8, witness: the grace note of c8State resolves to start -1 and
end 0 and leaves both matrices unchanged. -/
theorem C8_grace_at_step_zero_writes_nothing_witness :
    ∃ s', endElement c8State "note" = .ok s' ∧
      s'.pianoroll_local = c8State.pianoroll_local ∧
      s'.articulation_local = c8State.articulation_local :=
  C8_grace_at_step_zero_writes_nothing c8State 0 0 rfl rfl rfl rfl rfl
    (by decide) rfl rfl (by decide)

/-- C4, amended.  A sf, sfz, sffz or fz marking whose cursor resolves to
the in-range envelope index k sets envelope[k] = 0.984 (the fff level)
at that single step only and leaves every other step unchanged, unlike a
fff point marking, which writes the step function envelope[t:] = 0.984. -/
theorem C4_amended_sf_single_step (s : HState) (tag : String)
    (attrs : List (String × String)) (k : Nat)
    (htag : tag = "sf" ∨ tag = "sfz" ∨ tag = "sffz" ∨ tag = "fz")
    (hdiv : ¬ s.division_score = 0)
    (hflag : s.dyn_flag_is_dict = true)
    (hidx : pyIndex (s.total_length * s.division_pianoroll)
      (ratTrunc ((s.time * s.division_pianoroll : Int) / (s.division_score : ℚ))) = .ok k) :
    ∃ s', startElement s tag attrs = .ok s' ∧
      s'.dynamics k = 984/1000 ∧
      ∀ i, i ≠ k → s'.dynamics i = s.dynamics i := by
  rcases htag with h | h | h | h <;> subst h <;>
  · unfold startElement startPartInfo startChord startTieStaccato startDynamics startWedge setDynFlag
    simp only [String.reduceEq, reduceIte, if_false, if_true, or_self, or_false, false_or,
      mapping_dyn_number, HState.tLen, hdiv, hflag, hidx]
    refine ⟨_, rfl, ?_, ?_⟩
    · simp [dynSetAt]
    · intro i hi
      simp [dynSetAt, hi]

/-- Concrete instance of the state used to exercise C4: inside a part
with divisions 1 and cursor 0. -/
def c4State : HState :=
  { initState 1 8 128 false with division_score := 1, dyn_flag_is_dict := true }

/-- C4, witness: a sf marking at step 0 of c4State sets only step 0. -/
theorem C4_amended_sf_single_step_witness :
    ∃ s', startElement c4State "sf" [] = .ok s' ∧
      s'.dynamics 0 = 984/1000 ∧
      ∀ i, i ≠ 0 → s'.dynamics i = c4State.dynamics i :=
  C4_amended_sf_single_step c4State "sf" [] 0 (Or.inl rfl) (by decide) rfl rfl

/-- Truncating z / -1 negates the integer z. -/
theorem ratTrunc_div_neg_one (z : Int) :
    ratTrunc ((z : ℚ) / ((-1 : Int) : ℚ)) = -z := by
  have e : ((z : ℚ)) / ((-1 : Int) : ℚ) = ((-z : Int) : ℚ) := by
    push_cast
    ring
  rw [e, ratTrunc_intCast]

/-- Resolving a negated positive in-range bound wraps it from the end. -/
theorem resolveIdx_neg (n : Nat) (w : Int) (h0 : 0 < w) (hn : w ≤ (n : Int)) :
    resolveIdx n (-w) = ((n : Int) - w).toNat := by
  unfold resolveIdx
  rw [if_pos (by omega)]
  have e : -w + (n : Int) = (n : Int) - w := by ring
  rw [e, min_eq_left (by omega), max_eq_right (by omega)]

/-- C5, amended.  When a note duration is converted to pianoroll steps
before divisions has been observed (sentinel division_score = -1, cursor
still 0), no fatal error is raised: the start step computes to 0 and the
end step to -(duration * quantization), the NumPy slice wraps, and the
conversion proceeds, writing 1 over note-on rows [0, n - duration *
quantization) at the resolved pitch. -/
theorem C5_amended_no_divisions_silent (s : HState) (m : Int) (p : Nat)
    (hdiv : s.division_score = -1) (htime : s.time = 0)
    (hq : 0 < s.division_pianoroll)
    (hrest : s.rest = false) (hgrace : s.grace = false)
    (hplayed : s.not_played_note = false) (hpitch : s.pitch_set = true)
    (hstep : mapping_step_midi s.step = some m)
    (hcol : pyIndex s.number_pitches (m + s.octave * 12 + s.alter) = .ok p)
    (hds : s.duration_set = true)
    (hdurpos : 0 < s.duration)
    (hdq : s.duration * (s.division_pianoroll : Int) ≤ ((s.total_length * s.division_pianoroll : Nat) : Int)) :
    ∃ s', endElement s "note" = .ok s' ∧
      ∀ t : Nat, (t : Int) < ((s.total_length * s.division_pianoroll : Nat) : Int) - s.duration * (s.division_pianoroll : Int) →
        s'.pianoroll_local t p = 1 := by
  have hST : ratTrunc ((s.time * s.division_pianoroll : Int) / (s.division_score : ℚ)) = 0 := by
    have e : ((s.time * s.division_pianoroll : Int) : ℚ) / ((s.division_score : Int) : ℚ) = ((0 : Int) : ℚ) := by
      rw [htime, hdiv]
      push_cast
      ring
    rw [e, ratTrunc_intCast]
  have hEN : ratTrunc (((s.time + s.duration) * s.division_pianoroll : Int) / (s.division_score : ℚ)) =
      -(s.duration * (s.division_pianoroll : Int)) := by
    have e : (((s.time + s.duration) * s.division_pianoroll : Int) : ℚ) / ((s.division_score : Int) : ℚ) =
        ((-(s.duration * (s.division_pianoroll : Int)) : Int) : ℚ) := by
      rw [htime, hdiv]
      push_cast
      ring
    rw [e, ratTrunc_intCast]
  have hinner : ∃ T, endNote s = .ok T ∧
      ∀ t : Nat, (t : Int) < ((s.total_length * s.division_pianoroll : Nat) : Int) - s.duration * (s.division_pianoroll : Int) →
        T.pianoroll_local t p = 1 := by
    unfold endNote
    simp only [hrest, hgrace, hplayed, hpitch, hds, Bool.not_true, Bool.not_false,
      Bool.and_false, Bool.false_and, Bool.true_and, Bool.and_true,
      Bool.or_true, Bool.true_or, Bool.or_false, Bool.false_or, reduceIte]
    unfold endNoteWrites
    rw [if_neg (show ¬ s.division_score = 0 by rw [hdiv]; decide)]
    dsimp only
    simp only [hgrace, Bool.false_eq_true, reduceIte]
    rw [hST, hEN, hstep]
    dsimp only
    rw [hcol]
    dsimp only
    refine ⟨_, rfl, ?_⟩
    intro t ht
    rw [endNoteFinish_pianoroll, endNoteArtic_pianoroll]
    show matSetSlice s.tLen 0 (-(s.duration * (s.division_pianoroll : Int))) p 1 s.pianoroll_local t p = 1
    unfold matSetSlice
    rw [if_pos]
    refine ⟨rfl, ?_, ?_⟩
    · rw [resolveIdx_zero]
      exact Nat.zero_le _
    · rw [show s.tLen = s.total_length * s.division_pianoroll from rfl,
          resolveIdx_neg _ _ (by positivity) hdq]
      omega
  obtain ⟨T, hT, hT1⟩ := hinner
  unfold endElement
  simp only [String.reduceEq, reduceIte, hT]
  exact ⟨T, rfl, hT1⟩

/-- Concrete instance of the state used to exercise C5: a note with
pitch C0 and duration 1 before any divisions element. -/
def c5State : HState :=
  { initState 1 8 128 false with
      pitch_set := true
      step := "C"
      duration := 1
      duration_set := true }

/-- C5, witness: the note of c5State passes note end without error and
rows 0 to 6 of the note-on matrix hold 1 at pitch 0. -/
theorem C5_amended_no_divisions_silent_witness :
    ∃ s', endElement c5State "note" = .ok s' ∧
      ∀ t : Nat, (t : Int) < ((c5State.total_length * c5State.division_pianoroll : Nat) : Int) -
          c5State.duration * (c5State.division_pianoroll : Int) →
        s'.pianoroll_local t 0 = 1 :=
  C5_amended_no_divisions_silent c5State 0 0 rfl rfl (by decide) rfl rfl rfl rfl
    rfl rfl rfl (by decide) (by decide)

/-- C6, amended.  A crescendo hairpin pending from step S at level
L = envelope[S] and stopped at step E with S < E is interpolated
non-decreasingly over [S, E), and envelope[E:] is filled with
min(L + 0.1, 1); the last step of [S, E) reaches min(L + 0.1, 1) when
E is at least S + 2, but for a one-step hairpin (E = S + 1) the single
interpolated point keeps the starting level L.  A hairpin stop with no
pending start aborts with the unbalanced-direction error. -/
theorem C6_amended_cresc_hairpin (s : HState) (S E : Int) (L : ℚ)
    (hds : s.direction_start = some S)
    (hty : s.direction_type = some "crescendo")
    (hdiv : ¬ s.division_score = 0)
    (hflag : s.dyn_flag_is_dict = true)
    (hS0 : 0 ≤ S)
    (hE : ratTrunc ((s.time * s.division_pianoroll : Int) / (s.division_score : ℚ)) = E)
    (hSE : S < E)
    (hEn : E ≤ ((s.total_length * s.division_pianoroll : Nat) : Int))
    (hL : s.dynamics S.toNat = L)
    (hL1 : L ≤ 1) :
    (∃ s', startElement s "wedge" [("type", "stop")] = .ok s' ∧
      (∀ i j : Nat, S.toNat ≤ i → i ≤ j → j < E.toNat → s'.dynamics i ≤ s'.dynamics j) ∧
      (S.toNat + 2 ≤ E.toNat → s'.dynamics (E.toNat - 1) = min (L + 1/10) 1) ∧
      (E.toNat = S.toNat + 1 → s'.dynamics S.toNat = L) ∧
      (∀ i : Nat, E.toNat ≤ i → i < s.total_length * s.division_pianoroll →
        s'.dynamics i = min (L + 1/10) 1)) ∧
    (∀ s2 : HState, s2.direction_start = none →
      ∃ msg, startElement s2 "wedge" [("type", "stop")] = .error msg) := by
  have hSn : S < ((s.total_length * s.division_pianoroll : Nat) : Int) := lt_of_lt_of_le hSE hEn
  have hLB : L ≤ min (L + 1/10) 1 := le_min (by linarith) hL1
  have hlook : List.lookup "type" ([("type", "stop")] : List (String × String)) = some "stop" := rfl
  constructor
  · unfold startElement startPartInfo startChord startTieStaccato startDynamics startWedge
    simp only [String.reduceEq, reduceIte, if_false, if_true, or_self, or_false, false_or,
      mapping_dyn_number, hdiv, hE, hlook]
    rw [hds]
    try dsimp only
    simp only [HState.tLen]
    try dsimp only
    rw [pyIndex_of_nonneg _ _ hS0 hSn]
    try dsimp only
    rw [hty, if_pos rfl, hL]
    unfold npLinspaceAssign
    rw [if_neg (by omega : ¬ E - S < 0)]
    try dsimp only
    rw [resolveIdx_of_nonneg_le _ _ hS0 (le_of_lt hSn),
        resolveIdx_of_nonneg_le _ _ (by omega) hEn]
    rw [if_neg (by
      simp only [ne_eq, Decidable.not_not]
      omega)]
    try dsimp only
    unfold setDynFlag
    simp only [hflag, reduceIte]
    try dsimp only
    have hval : ∀ x : Nat,
        dynSetFrom (s.total_length * s.division_pianoroll) E (min (L + 1/10) 1)
          (fun i => if S.toNat ≤ i ∧ i < E.toNat then
              linspaceVal L (min (L + 1/10) 1) (E.toNat - S.toNat) (i - S.toNat)
            else s.dynamics i) x =
          if E.toNat ≤ x ∧ x < s.total_length * s.division_pianoroll then min (L + 1/10) 1
          else if S.toNat ≤ x ∧ x < E.toNat then
            linspaceVal L (min (L + 1/10) 1) (E.toNat - S.toNat) (x - S.toNat)
          else s.dynamics x := by
      intro x
      unfold dynSetFrom
      rw [resolveIdx_of_nonneg_le _ _ (by omega) hEn]
    refine ⟨_, rfl, ?_, ?_, ?_, ?_⟩
    · intro i j hi hij hj
      try dsimp only
      rw [hval i, hval j]
      rw [if_neg (by omega), if_pos ⟨hi, by omega⟩, if_neg (by omega), if_pos ⟨by omega, hj⟩]
      exact linspaceVal_mono _ _ _ _ _ hLB (by omega)
    · intro h2
      try dsimp only
      rw [hval (E.toNat - 1)]
      rw [if_neg (by omega), if_pos ⟨by omega, by omega⟩]
      rw [show E.toNat - 1 - S.toNat = (E.toNat - S.toNat) - 1 by omega]
      exact linspaceVal_last _ _ _ (by omega)
    · intro h1
      try dsimp only
      rw [hval S.toNat]
      rw [if_neg (by omega), if_pos ⟨le_refl _, by omega⟩]
      unfold linspaceVal
      rw [if_pos (by omega)]
    · intro i hiE hin
      try dsimp only
      rw [hval i]
      rw [if_pos ⟨hiE, hin⟩]
  · intro s2 hds2
    unfold startElement startPartInfo startChord startTieStaccato startDynamics startWedge
    simp only [String.reduceEq, reduceIte, if_false, if_true, or_self, or_false, false_or,
      mapping_dyn_number, hlook]
    by_cases hz : s2.division_score = 0
    · rw [if_pos hz]
      exact ⟨_, rfl⟩
    · rw [if_neg hz]
      try dsimp only
      rw [hds2]
      exact ⟨_, rfl⟩

/-- Concrete instance of the state used to exercise C6: a crescendo
pending from step 0 at the default level 0.5, stopped at step 2. -/
def c6State : HState :=
  { initState 1 8 128 false with
      division_score := 1
      dyn_flag_is_dict := true
      time := 2
      direction_start := some 0
      direction_type := some "crescendo"
      dynamics := fun _ => 1/2 }

/-- C6, witness: stopping the pending crescendo of c6State at step 2
gives a non-decreasing ramp over steps 0 and 1 that reaches 0.6 at step
1 and fills 0.6 from step 2 on. -/
theorem C6_amended_cresc_hairpin_witness :
    (∃ s', startElement c6State "wedge" [("type", "stop")] = .ok s' ∧
      (∀ i j : Nat, (0 : Int).toNat ≤ i → i ≤ j → j < (2 : Int).toNat → s'.dynamics i ≤ s'.dynamics j) ∧
      ((0 : Int).toNat + 2 ≤ (2 : Int).toNat → s'.dynamics ((2 : Int).toNat - 1) = min ((1/2 : ℚ) + 1/10) 1) ∧
      ((2 : Int).toNat = (0 : Int).toNat + 1 → s'.dynamics (0 : Int).toNat = (1/2 : ℚ)) ∧
      (∀ i : Nat, (2 : Int).toNat ≤ i → i < c6State.total_length * c6State.division_pianoroll →
        s'.dynamics i = min ((1/2 : ℚ) + 1/10) 1)) ∧
    (∀ s2 : HState, s2.direction_start = none →
      ∃ msg, startElement s2 "wedge" [("type", "stop")] = .error msg) :=
  C6_amended_cresc_hairpin c6State 0 2 (1/2) rfl rfl (by decide) rfl (by decide)
    (by decide) (by decide) (by decide) rfl (by norm_num)

/-! ## Claim C1, amended -/

/-- Looking up the key just written into a dict. -/
theorem dictSet_lookup_self {α : Type} (k : String) (v : α)
    (d : List (String × α)) : (dictSet k v d).lookup k = some v := by
  unfold dictSet
  simp [List.lookup]

/-- The reset phase never touches the tie bookkeeping. -/
theorem endNoteFinish_tying (s : HState) :
    (endNoteFinish s).tying = s.tying := by
  unfold endNoteFinish
  dsimp only
  split <;> rfl

/-- Start step of the current note, source line 230. -/
def noteStartStep (s : HState) : Int :=
  ratTrunc ((s.time * s.division_pianoroll : Int) / (s.division_score : ℚ))

/-- End step of the current non-grace note, source line 236. -/
def noteEndStep (s : HState) : Int :=
  ratTrunc (((s.time + s.duration) * s.division_pianoroll : Int) / (s.division_score : ℚ))

/-- The state written by the note-on slice assignment of source line
240, for a non-grace note. -/
def noteWrittenState (s : HState) (p : Nat) : HState :=
  { s with pianoroll_local :=
      matSetSlice s.tLen (noteStartStep s) (noteEndStep s) p 1 s.pianoroll_local }

/-- Full evaluation of note end for a printed, non-rest, non-grace note
with a resolved pitch: the note-on slice is written and the articulation
phase and the resets run on the result. -/
theorem endNote_eval (s : HState) (m : Int) (p : Nat)
    (hrest : s.rest = false) (hgrace : s.grace = false)
    (hplayed : s.not_played_note = false) (hpitch : s.pitch_set = true)
    (hds : s.duration_set = true)
    (hdiv : ¬ s.division_score = 0)
    (hstep : mapping_step_midi s.step = some m)
    (hcol : pyIndex s.number_pitches (m + s.octave * 12 + s.alter) = .ok p) :
    endElement s "note" = .ok (endNoteFinish (endNoteArtic
      (noteWrittenState s p) (noteStartStep s) (noteEndStep s) p)) := by
  have hinner : endNote s = .ok (endNoteFinish (endNoteArtic
      (noteWrittenState s p) (noteStartStep s) (noteEndStep s) p)) := by
    unfold endNote
    simp only [hrest, hgrace, hplayed, hpitch, hds, Bool.not_true, Bool.not_false,
      Bool.and_false, Bool.false_and, Bool.true_and, Bool.and_true,
      Bool.or_true, Bool.true_or, Bool.or_false, Bool.false_or, reduceIte]
    unfold endNoteWrites
    rw [if_neg hdiv]
    dsimp only
    have hg2 : ¬ (s.grace = true) := by simp [hgrace]
    rw [if_neg hg2, if_neg hg2, hstep]
    dsimp only
    rw [hcol]
    rfl
  unfold endElement
  simp only [String.reduceEq, reduceIte, hinner]

/-- Articulation phase for an untied-voice note carrying tie type start:
the tying flag for the default voice ends true and the articulation
matrix receives the full interval. -/
theorem endNoteArtic_tie_start (s : HState) (st en : Int) (p : Nat)
    (hvoice : s.voice_set = false)
    (htie : s.tie_type = some "start")
    (hstac : s.staccato = false) (hchord : s.chord = false) :
    (endNoteArtic s st en p).articulation_local
      = matSetSlice s.tLen st en p 1 s.articulation_local ∧
    (endNoteArtic s st en p).tying.lookup "1" = some true := by
  unfold endNoteArtic
  by_cases hinit : s.tying.lookup "1" = none <;>
    simp [hinit, hvoice, htie, hstac, hchord, dictSet_lookup_self]

/-- Articulation phase for a note carrying tie type stop in the default
voice: the tying flag is cleared before being read, so the note is
written as an untied, unstaccato note over the interval minus its last
step. -/
theorem endNoteArtic_tie_stop (s : HState) (st en : Int) (p : Nat)
    (hvoice : s.voice_set = false)
    (htie : s.tie_type = some "stop")
    (hstac : s.staccato = false) (hchord : s.chord = false) :
    (endNoteArtic s st en p).articulation_local
      = matSetSlice s.tLen st (en - 1) p 1 s.articulation_local := by
  unfold endNoteArtic
  by_cases hinit : s.tying.lookup "1" = none <;>
    simp [hinit, hvoice, htie, hstac, hchord, dictSet_lookup_self]

/-- C1, amended.  A two-note tie in one voice (the default voice, with a
start note on steps [T0, T1) and a same-pitch stop note on [T1, T2))
yields articulation one on every step of [T0, T2 - 1) — in particular no
zero at T1 — while the final step T2 - 1 is left exactly as it was
before the pair: the stop note clears the tying flag before reading it
and is therefore written as a plain untied note over [T1, T2 - 1). -/
theorem C1_amended_tie_pair (s1 s1' s2 : HState) (m1 m2 : Int) (p : Nat)
    (T0 T1 T2 : Int)
    (h1rest : s1.rest = false) (h1grace : s1.grace = false)
    (h1played : s1.not_played_note = false) (h1pitch : s1.pitch_set = true)
    (h1ds : s1.duration_set = true) (h1div : ¬ s1.division_score = 0)
    (h1step : mapping_step_midi s1.step = some m1)
    (h1col : pyIndex s1.number_pitches (m1 + s1.octave * 12 + s1.alter) = .ok p)
    (h1voice : s1.voice_set = false) (h1tie : s1.tie_type = some "start")
    (h1stac : s1.staccato = false) (h1chord : s1.chord = false)
    (hT0 : noteStartStep s1 = T0) (hT1 : noteEndStep s1 = T1)
    (hrun1 : endElement s1 "note" = .ok s1')
    (hagA : s2.articulation_local = s1'.articulation_local)
    (hagN : s2.total_length = s1.total_length)
    (hagQ : s2.division_pianoroll = s1.division_pianoroll)
    (h2rest : s2.rest = false) (h2grace : s2.grace = false)
    (h2played : s2.not_played_note = false) (h2pitch : s2.pitch_set = true)
    (h2ds : s2.duration_set = true) (h2div : ¬ s2.division_score = 0)
    (h2step : mapping_step_midi s2.step = some m2)
    (h2col : pyIndex s2.number_pitches (m2 + s2.octave * 12 + s2.alter) = .ok p)
    (h2voice : s2.voice_set = false) (h2tie : s2.tie_type = some "stop")
    (h2stac : s2.staccato = false) (h2chord : s2.chord = false)
    (hT1b : noteStartStep s2 = T1) (hT2 : noteEndStep s2 = T2)
    (hT0n : 0 ≤ T0) (hT01 : T0 ≤ T1) (hT12 : T1 < T2)
    (hT2n : T2 ≤ ((s1.total_length * s1.division_pianoroll : Nat) : Int)) :
    ∃ s2', endElement s2 "note" = .ok s2' ∧
      (∀ t : Nat, T0.toNat ≤ t → t < (T2 - 1).toNat → s2'.articulation_local t p = 1) ∧
      s2'.articulation_local (T2 - 1).toNat p = s1.articulation_local (T2 - 1).toNat p := by
  have h1 := endNote_eval s1 m1 p h1rest h1grace h1played h1pitch h1ds h1div h1step h1col
  rw [hrun1] at h1
  injection h1 with h1
  have hA1 : s1'.articulation_local
      = matSetSlice s1.tLen T0 T1 p 1 s1.articulation_local := by
    rw [h1, endNoteFinish_artic,
        (endNoteArtic_tie_start (noteWrittenState s1 p) (noteStartStep s1) (noteEndStep s1) p
          h1voice h1tie h1stac h1chord).1, hT0, hT1]
    rfl
  have hnn : s2.tLen = s1.tLen := by
    unfold HState.tLen
    rw [hagN, hagQ]
  have h2run := endNote_eval s2 m2 p h2rest h2grace h2played h2pitch h2ds h2div h2step h2col
  have hA2 : (endNoteFinish (endNoteArtic (noteWrittenState s2 p)
        (noteStartStep s2) (noteEndStep s2) p)).articulation_local
      = matSetSlice s1.tLen T1 (T2 - 1) p 1
          (matSetSlice s1.tLen T0 T1 p 1 s1.articulation_local) := by
    rw [endNoteFinish_artic,
        endNoteArtic_tie_stop (noteWrittenState s2 p) (noteStartStep s2) (noteEndStep s2) p
          h2voice h2tie h2stac h2chord, hT1b, hT2]
    show matSetSlice s2.tLen T1 (T2 - 1) p 1 s2.articulation_local = _
    rw [hnn, hagA, hA1]
  have hrB : resolveIdx s1.tLen (T2 - 1) = (T2 - 1).toNat :=
    resolveIdx_of_nonneg_le _ _ (by omega) (le_trans (by omega) hT2n)
  have hrC : resolveIdx s1.tLen T0 = T0.toNat :=
    resolveIdx_of_nonneg_le _ _ hT0n (le_trans (by omega) hT2n)
  have hrD : resolveIdx s1.tLen T1 = T1.toNat :=
    resolveIdx_of_nonneg_le _ _ (by omega) (le_trans (by omega) hT2n)
  refine ⟨_, h2run, ?_, ?_⟩
  · intro t ht0 ht2
    rw [hA2]
    unfold matSetSlice
    by_cases hmid : T1.toNat ≤ t
    · rw [if_pos ⟨rfl, by rw [hrD]; exact hmid, by rw [hrB]; exact ht2⟩]
    · rw [if_neg (by
        rintro ⟨-, hc, -⟩
        rw [hrD] at hc
        omega)]
      rw [if_pos ⟨rfl, by rw [hrC]; exact ht0, by rw [hrD]; omega⟩]
  · rw [hA2]
    unfold matSetSlice
    rw [if_neg (by
      rintro ⟨-, -, hc⟩
      rw [hrB] at hc
      omega)]
    rw [if_neg (by
      rintro ⟨-, hc2, hc3⟩
      rw [hrD] at hc3
      omega)]

/-- Concrete first note of the tie pair used to exercise C1: pitch C4,
duration 2, tie start, divisions 1, quantization 1, eight steps. -/
def c1State1 : HState :=
  { initState 1 8 128 false with
      division_score := 1
      pitch_set := true
      step := "C"
      octave := 4
      duration := 2
      duration_set := true
      tie_type := some "start" }

/-- The state after processing the first note of the tie pair. -/
def c1State1' : HState :=
  match endElement c1State1 "note" with
  | .ok s => s
  | .error _ => c1State1

/-- Concrete second note of the tie pair: same pitch, duration 2, tie
stop, starting at the cursor left by the first note. -/
def c1State2 : HState :=
  { c1State1' with
      pitch_set := true
      step := "C"
      octave := 4
      duration := 2
      duration_set := true
      tie_type := some "stop" }

/-- C1, witness: the concrete tie pair C4 over [0,2) and [2,4) yields
articulation one on [0,3) and leaves step 3 as it was (zero). -/
theorem C1_amended_tie_pair_witness :
    ∃ s2', endElement c1State2 "note" = .ok s2' ∧
      (∀ t : Nat, (0 : Int).toNat ≤ t → t < ((4 : Int) - 1).toNat →
        s2'.articulation_local t 48 = 1) ∧
      s2'.articulation_local ((4 : Int) - 1).toNat 48 =
        c1State1.articulation_local ((4 : Int) - 1).toNat 48 :=
  C1_amended_tie_pair c1State1 c1State1' c1State2 0 0 48 0 2 4
    rfl rfl rfl rfl rfl (by decide) rfl rfl rfl rfl rfl rfl
    (by decide) (by decide) rfl rfl rfl rfl
    rfl rfl rfl rfl rfl (by decide) rfl rfl rfl rfl rfl rfl
    (by decide) (by decide)
    (by decide) (by decide) (by decide) (by decide)

/-! ## Claim C2, amended: range invariant -/

/-- Matrices whose entries are zero or one (the raw note-on and
articulation matrices). -/
def Mat01 (m : Mat) : Prop := ∀ t p, m t p = 0 ∨ m t p = 1

/-- Matrices whose entries lie in the unit interval (the scaled stored
matrices). -/
def MatIn01 (m : Mat) : Prop := ∀ t p, 0 ≤ m t p ∧ m t p ≤ 1

/-- Envelopes whose values lie in the unit interval. -/
def DynIn01 (d : Nat → ℚ) : Prop := ∀ i, 0 ≤ d i ∧ d i ≤ 1

/-- The range invariant maintained by every event handler: local
matrices are zero-one, the envelope and all stored scaled matrices stay
inside the unit interval. -/
def RangeInv (s : HState) : Prop :=
  Mat01 s.pianoroll_local ∧ Mat01 s.articulation_local ∧ DynIn01 s.dynamics ∧
  (∀ kv ∈ s.pianoroll, MatIn01 kv.2) ∧ (∀ kv ∈ s.articulation, MatIn01 kv.2)

theorem Mat01_matZero : Mat01 matZero := by
  intro t p
  left
  rfl

theorem RangeInv_initState (division total_length number_pitches : Nat)
    (discard_grace : Bool) :
    RangeInv (initState division total_length number_pitches discard_grace) := by
  refine ⟨Mat01_matZero, Mat01_matZero, ?_, ?_, ?_⟩
  · intro i
    refine ⟨le_refl 0, ?_⟩
    show (0 : ℚ) ≤ 1
    norm_num
  · intro kv hkv
    cases hkv
  · intro kv hkv
    cases hkv

theorem matSetSlice_Mat01 (n : Nat) (a b : Int) (p : Nat) (m : Mat)
    (hm : Mat01 m) : Mat01 (matSetSlice n a b p 1 m) := by
  intro t q
  unfold matSetSlice
  split
  · right
    rfl
  · exact hm t q

theorem dynSetFrom_DynIn01 (n : Nat) (a : Int) (v : ℚ) (d : Nat → ℚ)
    (hd : DynIn01 d) (hv : 0 ≤ v ∧ v ≤ 1) : DynIn01 (dynSetFrom n a v d) := by
  intro i
  unfold dynSetFrom
  split
  · exact hv
  · exact hd i

theorem dynSetAt_DynIn01 (t : Nat) (v : ℚ) (d : Nat → ℚ)
    (hd : DynIn01 d) (hv : 0 ≤ v ∧ v ≤ 1) : DynIn01 (dynSetAt t v d) := by
  intro i
  unfold dynSetAt
  split
  · exact hv
  · exact hd i

theorem mapping_dyn_number_bounds (tag : String) (v : ℚ)
    (h : mapping_dyn_number tag = some v) : 0 ≤ v ∧ v ≤ 1 := by
  unfold mapping_dyn_number at h
  split_ifs at h <;> injection h with h <;> subst h <;> norm_num

theorem npLinspaceAssign_DynIn01 (n : Nat) (a b : Int) (va vb : ℚ)
    (d dyn : Nat → ℚ) (hd : DynIn01 d)
    (hva : 0 ≤ va ∧ va ≤ 1) (hvb : 0 ≤ vb ∧ vb ≤ 1)
    (h : npLinspaceAssign n a b va vb d = .ok dyn) : DynIn01 dyn := by
  unfold npLinspaceAssign at h
  dsimp only at h
  split at h
  · exact absurd h (by simp)
  · split at h
    · exact absurd h (by simp)
    · injection h with h
      subst h
      intro i
      dsimp only
      split
      · rename_i hcond
        have hk := linspaceVal_bounds va vb (resolveIdx n b - resolveIdx n a)
          (i - resolveIdx n a) (by omega)
        constructor
        · calc (0 : ℚ) ≤ min va vb := le_min hva.1 hvb.1
          _ ≤ _ := hk.1
        · calc linspaceVal va vb _ _ ≤ max va vb := hk.2
          _ ≤ 1 := max_le hva.2 hvb.2
      · exact hd i

theorem scaleMat_MatIn01 (m : Mat) (d : Nat → ℚ)
    (hm : Mat01 m) (hd : DynIn01 d) : MatIn01 (scaleMat m d) := by
  intro t p
  unfold scaleMat
  rcases hm t p with h | h <;> rw [h]
  · norm_num
  · rw [one_mul]
    exact hd t

theorem matMax_MatIn01 (a b : Mat) (ha : MatIn01 a) (hb : MatIn01 b) :
    MatIn01 (matMax a b) := by
  intro t p
  unfold matMax
  exact ⟨le_max_of_le_left (ha t p).1, max_le (ha t p).2 (hb t p).2⟩

/-- A successful lookup in an association list comes from a member. -/
theorem lookup_mem {α : Type} (d : List (String × α)) (k : String) (v : α)
    (h : d.lookup k = some v) : (k, v) ∈ d := by
  induction d with
  | nil => cases h
  | cons a tl ih =>
    obtain ⟨a1, a2⟩ := a
    rw [List.lookup] at h
    by_cases hk : k == a1
    · simp only [hk] at h
      injection h with h
      subst h
      have hk2 : k = a1 := eq_of_beq hk
      subst hk2
      exact List.mem_cons_self _ _
    · have hk2 : (k == a1) = false := by simpa using hk
      simp only [hk2] at h
      exact List.mem_cons_of_mem _ (ih h)

theorem mergeInstr_mem {kv : String × Mat} (d : List (String × Mat))
    (name : String) (m : Mat)
    (hd : ∀ kv2 ∈ d, MatIn01 kv2.2) (hm : MatIn01 m)
    (hkv : kv ∈ mergeInstr d name m) : MatIn01 kv.2 := by
  unfold mergeInstr at hkv
  split at hkv <;>
  · rename_i hlk
    first
    | (unfold dictSet at hkv
       rcases List.mem_cons.mp hkv with h | h
       · subst h
         exact matMax_MatIn01 _ _ (hd _ (lookup_mem _ _ _ hlk)) hm
       · exact hd _ (List.mem_filter.mp h).1)
    | (unfold dictSet at hkv
       rcases List.mem_cons.mp hkv with h | h
       · subst h
         exact hm
       · exact hd _ (List.mem_filter.mp h).1)

/-- The range invariant only depends on five fields. -/
theorem RangeInv_congr (s s' : HState)
    (h1 : s'.pianoroll_local = s.pianoroll_local)
    (h2 : s'.articulation_local = s.articulation_local)
    (h3 : s'.dynamics = s.dynamics)
    (h4 : s'.pianoroll = s.pianoroll)
    (h5 : s'.articulation = s.articulation)
    (hs : RangeInv s) : RangeInv s' := by
  unfold RangeInv at hs ⊢
  rw [h1, h2, h3, h4, h5]
  exact hs

theorem DynIn01_half : DynIn01 (fun _ => (1/2 : ℚ)) := by
  intro i
  constructor <;> norm_num

theorem setDynFlag_inv (s s' : HState) (k : Int) (v : String)
    (h : setDynFlag s k v = .ok s') (hs : RangeInv s) : RangeInv s' := by
  unfold setDynFlag at h
  split at h
  · cases h
    exact RangeInv_congr s _ rfl rfl rfl rfl rfl hs
  · exact Except.noConfusion h

theorem startChord_inv (s s' : HState) (tag : String)
    (h : startChord s tag = .ok s') (hs : RangeInv s) : RangeInv s' := by
  unfold startChord at h
  repeat' split at h
  all_goals first
    | exact Except.noConfusion h
    | (cases h
       exact RangeInv_congr s _ rfl rfl rfl rfl rfl hs)

theorem startPartInfo_inv (s s' : HState) (tag : String)
    (attrs : List (String × String))
    (h : startPartInfo s tag attrs = .ok s') (hs : RangeInv s) : RangeInv s' := by
  unfold startPartInfo at h
  dsimp only at h
  repeat' split at h
  all_goals first
    | exact Except.noConfusion h
    | (cases h
       have hY := startChord_inv _ _ _ (by assumption) (by
         refine ⟨?_, ?_, ?_, ?_, ?_⟩ <;>
           simp only [apply_ite HState.pianoroll_local, apply_ite HState.articulation_local,
             apply_ite HState.dynamics, apply_ite HState.pianoroll,
             apply_ite HState.articulation, ite_self] <;>
           (repeat' split) <;>
           first
             | exact hs.1
             | exact hs.2.1
             | exact hs.2.2.1
             | exact hs.2.2.2.1
             | exact hs.2.2.2.2
             | exact Mat01_matZero
             | exact DynIn01_half)
       refine ⟨?_, ?_, ?_, ?_, ?_⟩ <;>
         first
           | exact hY.1
           | exact hY.2.1
           | exact hY.2.2.1
           | exact hY.2.2.2.1
           | exact hY.2.2.2.2)

theorem startTieStaccato_inv (s s' : HState) (tag : String)
    (attrs : List (String × String))
    (h : startTieStaccato s tag attrs = .ok s') (hs : RangeInv s) : RangeInv s' := by
  unfold startTieStaccato at h
  dsimp only at h
  repeat' split at h
  all_goals try exact Except.noConfusion h
  all_goals cases h
  all_goals refine ⟨?_, ?_, ?_, ?_, ?_⟩ <;>
    first
      | exact hs.1
      | exact hs.2.1
      | exact hs.2.2.1
      | exact hs.2.2.2.1
      | exact hs.2.2.2.2

theorem startDynamics_inv (s s' : HState) (tag : String) (tp : Int)
    (h : startDynamics s tag tp = .ok s') (hs : RangeInv s) : RangeInv s' := by
  unfold startDynamics at h
  dsimp only at h
  split at h
  · rename_i level hmap
    split at h
    · exact Except.noConfusion h
    · rename_i s2 hflag
      cases h
      exact setDynFlag_inv _ _ _ _ hflag
        ⟨hs.1, hs.2.1,
         dynSetFrom_DynIn01 _ _ _ _ hs.2.2.1 (mapping_dyn_number_bounds _ _ hmap),
         hs.2.2.2.1, hs.2.2.2.2⟩
  · split at h
    · split at h
      · exact Except.noConfusion h
      · rename_i k hk
        exact setDynFlag_inv _ _ _ _ h
          ⟨hs.1, hs.2.1, dynSetAt_DynIn01 _ _ _ hs.2.2.1 (by norm_num),
           hs.2.2.2.1, hs.2.2.2.2⟩
    · split at h
      · split at h
        · exact Except.noConfusion h
        · rename_i k hk
          split at h
          · exact Except.noConfusion h
          · rename_i s3 hflag1
            exact setDynFlag_inv _ _ _ _ h
              (setDynFlag_inv _ _ _ _ hflag1
                ⟨hs.1, hs.2.1,
                 dynSetFrom_DynIn01 _ _ _ _
                   (dynSetAt_DynIn01 _ _ _ hs.2.2.1 (by norm_num)) (by norm_num),
                 hs.2.2.2.1, hs.2.2.2.2⟩)
      · cases h
        exact hs

set_option maxHeartbeats 800000 in
theorem startWedge_inv (s s' : HState) (tag : String)
    (attrs : List (String × String)) (tp : Int)
    (h : startWedge s tag attrs tp = .ok s') (hs : RangeInv s) : RangeInv s' := by
  unfold startWedge at h
  try dsimp only at h
  split at h
  · split at h
    · exact Except.noConfusion h
    · rename_i ty hty
      split at h
      · cases h
        exact RangeInv_congr s _ rfl rfl rfl rfl rfl hs
      · split at h
        · split at h
          · exact Except.noConfusion h
          · rename_i ds hds
            split at h
            · exact Except.noConfusion h
            · rename_i dsIdx hIdx
              split at h
              · exact Except.noConfusion h
              · rename_i s2 ending hpr
                cases h
                have hL := hs.2.2.1 dsIdx
                split at hpr
                · split at hpr
                  · exact Except.noConfusion hpr
                  · rename_i dyn hlin
                    split at hpr
                    · exact Except.noConfusion hpr
                    · rename_i s3 hf1
                      split at hpr
                      · exact Except.noConfusion hpr
                      · rename_i s4 hf2
                        cases hpr
                        have hB : 0 ≤ min (s.dynamics dsIdx + 1/10) (1 : ℚ) ∧
                            min (s.dynamics dsIdx + 1/10) (1 : ℚ) ≤ 1 :=
                          ⟨le_min (by linarith [hL.1]) (by norm_num), min_le_right _ _⟩
                        have hs4 :=
                          setDynFlag_inv _ _ _ _ hf2
                            (setDynFlag_inv _ _ _ _ hf1
                              ⟨hs.1, hs.2.1,
                               npLinspaceAssign_DynIn01 _ _ _ _ _ _ _ hs.2.2.1 hL hB hlin,
                               hs.2.2.2.1, hs.2.2.2.2⟩)
                        exact ⟨hs4.1, hs4.2.1,
                          dynSetFrom_DynIn01 _ _ _ _ hs4.2.2.1 hB,
                          hs4.2.2.2.1, hs4.2.2.2.2⟩
                · split at hpr
                  · split at hpr
                    · exact Except.noConfusion hpr
                    · rename_i dyn hlin
                      split at hpr
                      · exact Except.noConfusion hpr
                      · rename_i s3 hf1
                        split at hpr
                        · exact Except.noConfusion hpr
                        · rename_i s4 hf2
                          cases hpr
                          have hB : 0 ≤ max (s.dynamics dsIdx - 1/10) (0 : ℚ) ∧
                              max (s.dynamics dsIdx - 1/10) (0 : ℚ) ≤ 1 :=
                            ⟨le_max_right _ _, max_le (by linarith [hL.2]) (by norm_num)⟩
                          have hs4 :=
                            setDynFlag_inv _ _ _ _ hf2
                              (setDynFlag_inv _ _ _ _ hf1
                                ⟨hs.1, hs.2.1,
                                 npLinspaceAssign_DynIn01 _ _ _ _ _ _ _ hs.2.2.1 hL hB hlin,
                                 hs.2.2.2.1, hs.2.2.2.2⟩)
                          exact ⟨hs4.1, hs4.2.1,
                            dynSetFrom_DynIn01 _ _ _ _ hs4.2.2.1 hB,
                            hs4.2.2.2.1, hs4.2.2.2.2⟩
                  · exact Except.noConfusion hpr
        · cases h
          exact hs
  · cases h
    exact hs

theorem startElement_inv (s s' : HState) (tag : String)
    (attrs : List (String × String))
    (h : startElement s tag attrs = .ok s') (hs : RangeInv s) : RangeInv s' := by
  unfold startElement at h
  dsimp only at h
  split at h
  · exact Except.noConfusion h
  · rename_i s1 h1
    split at h
    · exact Except.noConfusion h
    · rename_i s2 h2
      split at h
      · exact Except.noConfusion h
      · split at h
        · exact Except.noConfusion h
        · rename_i s3 h3
          exact startWedge_inv _ _ _ _ _ h
            (startDynamics_inv _ _ _ _ h3
              (startTieStaccato_inv _ _ _ _ h2
                (startPartInfo_inv _ _ _ _ h1
                  (RangeInv_congr s _ rfl rfl rfl rfl rfl hs))))

theorem charsWords_eq (s s' : HState) (content : String)
    (h : charsWords s content = .ok s') : s' = s := by
  unfold charsWords at h
  rw [re_match_cresc_false, re_match_dim_false] at h
  simp only [Bool.or_self, Bool.false_eq_true, reduceIte] at h
  injection h with h
  exact h.symm

theorem characters_inv (s s' : HState) (content : String)
    (h : characters s content = .ok s') (hs : RangeInv s) : RangeInv s' := by
  have frame : ∀ X : HState,
      X.pianoroll_local = s.pianoroll_local →
      X.articulation_local = s.articulation_local →
      X.dynamics = s.dynamics → X.pianoroll = s.pianoroll →
      X.articulation = s.articulation → RangeInv X := by
    intro X e1 e2 e3 e4 e5
    exact RangeInv_congr s X e1 e2 e3 e4 e5 hs
  unfold characters at h
  by_cases c0 : pyStrip content = []
  · rw [if_pos c0] at h
    cases h
    exact hs
  · rw [if_neg c0] at h
    by_cases c1 : s.CurrentElement = "divisions"
    · rw [if_pos c1] at h
      cases hv : pyInt content with
      | error e =>
        rw [hv] at h
        exact Except.noConfusion h
      | ok v =>
        rw [hv] at h
        dsimp only at h
        by_cases c2 : ¬ s.beat = -1 ∧ ¬ s.beat_type = -1
        · rw [if_pos c2] at h
          by_cases c3 : s.beat_type = (0 : Int)
          · rw [if_pos c3] at h
            exact Except.noConfusion h
          · rw [if_neg c3] at h
            cases h
            exact frame _ rfl rfl rfl rfl rfl
        · rw [if_neg c2] at h
          cases h
          exact frame _ rfl rfl rfl rfl rfl
    · rw [if_neg c1] at h
      by_cases c4 : s.CurrentElement = "beats"
      · rw [if_pos c4] at h
        cases hv : pyInt content with
        | error e =>
          rw [hv] at h
          exact Except.noConfusion h
        | ok v =>
          rw [hv] at h
          dsimp only at h
          cases h
          exact frame _ rfl rfl rfl rfl rfl
      · rw [if_neg c4] at h
        by_cases c5 : s.CurrentElement = "beat-type"
        · rw [if_pos c5] at h
          cases hv : pyInt content with
          | error e =>
            rw [hv] at h
            exact Except.noConfusion h
          | ok v =>
            rw [hv] at h
            dsimp only at h
            by_cases c6 : s.beat = -1
            · rw [if_pos c6] at h
              exact Except.noConfusion h
            · rw [if_neg c6] at h
              by_cases c7 : s.division_score = -1
              · rw [if_pos c7] at h
                exact Except.noConfusion h
              · rw [if_neg c7] at h
                by_cases c8 : v = (0 : Int)
                · rw [if_pos c8] at h
                  exact Except.noConfusion h
                · rw [if_neg c8] at h
                  cases h
                  exact frame _ rfl rfl rfl rfl rfl
        · rw [if_neg c5] at h
          by_cases c9 : s.CurrentElement = "duration"
          · rw [if_pos c9] at h
            cases hv : pyInt content with
            | error e =>
              rw [hv] at h
              exact Except.noConfusion h
            | ok v =>
              rw [hv] at h
              dsimp only at h
              by_cases c10 : s.rest = true ∧ s.bar_length < v
              · rw [if_pos c10] at h
                cases h
                exact frame _ rfl rfl rfl rfl rfl
              · rw [if_neg c10] at h
                cases h
                exact frame _ rfl rfl rfl rfl rfl
          · rw [if_neg c9] at h
            by_cases c11 : s.CurrentElement = "step"
            · rw [if_pos c11] at h
              cases h
              exact frame _ rfl rfl rfl rfl rfl
            · rw [if_neg c11] at h
              by_cases c12 : s.CurrentElement = "octave"
              · rw [if_pos c12] at h
                cases hv : pyInt content with
                | error e =>
                  rw [hv] at h
                  exact Except.noConfusion h
                | ok v =>
                  rw [hv] at h
                  dsimp only at h
                  cases h
                  exact frame _ rfl rfl rfl rfl rfl
              · rw [if_neg c12] at h
                by_cases c13 : s.CurrentElement = "alter"
                · rw [if_pos c13] at h
                  by_cases c14 : content = "-"
                  · rw [if_pos c14] at h
                    cases h
                    exact frame _ rfl rfl rfl rfl rfl
                  · rw [if_neg c14] at h
                    cases hv : pyInt content with
                    | error e =>
                      rw [hv] at h
                      exact Except.noConfusion h
                    | ok v =>
                      rw [hv] at h
                      dsimp only at h
                      cases h
                      exact frame _ rfl rfl rfl rfl rfl
                · rw [if_neg c13] at h
                  by_cases c15 : s.CurrentElement = "voice"
                  · rw [if_pos c15] at h
                    cases h
                    exact frame _ rfl rfl rfl rfl rfl
                  · rw [if_neg c15] at h
                    by_cases c16 : s.CurrentElement = "part-name"
                    · rw [if_pos c16] at h
                      cases h
                      exact frame _ rfl rfl rfl rfl rfl
                    · rw [if_neg c16] at h
                      by_cases c17 : s.CurrentElement = "words"
                      · rw [if_pos c17] at h
                        exact (charsWords_eq _ _ _ h) ▸ hs
                      · rw [if_neg c17] at h
                        cases h
                        exact hs

theorem endNoteArtic_dynamics (s : HState) (st en : Int) (p : Nat) :
    (endNoteArtic s st en p).dynamics = s.dynamics := by
  unfold endNoteArtic
  dsimp only
  simp only [apply_ite HState.dynamics, ite_self]

theorem endNoteArtic_dictP (s : HState) (st en : Int) (p : Nat) :
    (endNoteArtic s st en p).pianoroll = s.pianoroll := by
  unfold endNoteArtic
  dsimp only
  simp only [apply_ite HState.pianoroll, ite_self]

theorem endNoteArtic_dictA (s : HState) (st en : Int) (p : Nat) :
    (endNoteArtic s st en p).articulation = s.articulation := by
  unfold endNoteArtic
  dsimp only
  simp only [apply_ite HState.articulation, ite_self]

theorem Mat01_ite (c : Prop) [Decidable c] (A B : Mat)
    (hA : Mat01 A) (hB : Mat01 B) : Mat01 (if c then A else B) := by
  split
  · exact hA
  · exact hB

set_option maxHeartbeats 800000 in
theorem endNoteArtic_artic_Mat01 (s : HState) (st en : Int) (p : Nat)
    (hm : Mat01 s.articulation_local) :
    Mat01 ((endNoteArtic s st en p).articulation_local) := by
  unfold endNoteArtic
  dsimp only
  simp only [apply_ite HState.articulation_local, ite_self]
  repeat'
    first
    | exact hm
    | apply Mat01_ite
    | apply matSetSlice_Mat01

theorem endNoteFinish_dynamics (s : HState) :
    (endNoteFinish s).dynamics = s.dynamics := by
  unfold endNoteFinish
  dsimp only
  split <;> rfl

theorem endNoteFinish_dictP (s : HState) :
    (endNoteFinish s).pianoroll = s.pianoroll := by
  unfold endNoteFinish
  dsimp only
  split <;> rfl

theorem endNoteFinish_dictA (s : HState) :
    (endNoteFinish s).articulation = s.articulation := by
  unfold endNoteFinish
  dsimp only
  split <;> rfl

theorem endNoteFinish_inv (s : HState) (hs : RangeInv s) :
    RangeInv (endNoteFinish s) :=
  RangeInv_congr s _ (endNoteFinish_pianoroll s) (endNoteFinish_artic s)
    (endNoteFinish_dynamics s) (endNoteFinish_dictP s) (endNoteFinish_dictA s) hs

theorem endNoteWrites_inv (s s' : HState)
    (h : endNoteWrites s = .ok s') (hs : RangeInv s) : RangeInv s' := by
  unfold endNoteWrites at h
  dsimp only at h
  split at h
  · exact Except.noConfusion h
  · split at h
    · exact Except.noConfusion h
    · rename_i semitone hsem
      split at h
      · exact Except.noConfusion h
      · rename_i pcol hcol
        cases h
        refine ⟨?_, ?_, ?_, ?_, ?_⟩
        · rw [endNoteArtic_pianoroll]
          exact matSetSlice_Mat01 _ _ _ _ _ hs.1
        · exact endNoteArtic_artic_Mat01 _ _ _ _ hs.2.1
        · rw [endNoteArtic_dynamics]
          exact hs.2.2.1
        · rw [endNoteArtic_dictP]
          exact hs.2.2.2.1
        · rw [endNoteArtic_dictA]
          exact hs.2.2.2.2

theorem endNote_inv (s s' : HState)
    (h : endNote s = .ok s') (hs : RangeInv s) : RangeInv s' := by
  unfold endNote at h
  dsimp only at h
  split at h
  · exact Except.noConfusion h
  · split at h
    · cases h
      exact hs
    · split at h
      · exact Except.noConfusion h
      · rename_i s2 heq
        cases h
        split at heq
        · exact endNoteFinish_inv _ (endNoteWrites_inv _ _ heq hs)
        · cases heq
          exact endNoteFinish_inv _ hs

theorem endPart_inv (s s' : HState)
    (h : endPart s = .ok s') (hs : RangeInv s) : RangeInv s' := by
  unfold endPart at h
  split at h
  · exact Except.noConfusion h
  · rename_i instru hlk
    cases h
    refine ⟨hs.1, hs.2.1, hs.2.2.1, ?_, ?_⟩
    · intro kv hkv
      exact mergeInstr_mem _ _ _ hs.2.2.2.1 (scaleMat_MatIn01 _ _ hs.1 hs.2.2.1) hkv
    · intro kv hkv
      exact mergeInstr_mem _ _ _ hs.2.2.2.2 (scaleMat_MatIn01 _ _ hs.2.1 hs.2.2.1) hkv

set_option maxHeartbeats 800000 in
theorem endElement_inv (s s' : HState) (tag : String)
    (h : endElement s tag = .ok s') (hs : RangeInv s) : RangeInv s' := by
  unfold endElement at h
  dsimp only at h
  split at h
  · exact Except.noConfusion h
  · rename_i s2 h2
    have inv2 : RangeInv s2 := by
      split at h2
      · exact endNote_inv _ _ h2 (by
          refine RangeInv_congr s _ ?_ ?_ ?_ ?_ ?_ hs <;>
            simp only [apply_ite HState.pianoroll_local, apply_ite HState.articulation_local,
              apply_ite HState.dynamics, apply_ite HState.pianoroll,
              apply_ite HState.articulation, ite_self])
      · cases h2
        refine RangeInv_congr s _ ?_ ?_ ?_ ?_ ?_ hs <;>
          simp only [apply_ite HState.pianoroll_local, apply_ite HState.articulation_local,
            apply_ite HState.dynamics, apply_ite HState.pianoroll,
            apply_ite HState.articulation, ite_self]
    split at h
    · exact Except.noConfusion h
    · rename_i s3 h3
      have inv3 : RangeInv s3 := by
        split at h3
        · split at h3
          · exact Except.noConfusion h3
          · cases h3
            exact RangeInv_congr s2 _ rfl rfl rfl rfl rfl inv2
        · cases h3
          exact inv2
      split at h
      · exact Except.noConfusion h
      · rename_i s4 h4
        have inv4 : RangeInv s4 := by
          split at h4
          · split at h4
            · exact Except.noConfusion h4
            · cases h4
              exact RangeInv_congr s3 _ rfl rfl rfl rfl rfl inv3
          · cases h4
            exact inv3
        have inv5 : RangeInv (if tag = "part-name" then
            { s4 with content := ""
                      part_instru_mapping := dictSet s4.identifier s4.content s4.part_instru_mapping }
          else s4) := by
          split
          · exact RangeInv_congr s4 _ rfl rfl rfl rfl rfl inv4
          · exact inv4
        split at h
        · exact endPart_inv _ _ h inv5
        · cases h
          exact inv5

theorem applyEvent_inv (s s' : HState) (e : XEvent)
    (h : applyEvent s e = .ok s') (hs : RangeInv s) : RangeInv s' := by
  cases e with
  | start tag attrs => exact startElement_inv _ _ _ _ h hs
  | endE tag => exact endElement_inv _ _ _ h hs
  | chars content => exact characters_inv _ _ _ h hs

theorem runEvents_inv (events : List XEvent) (s s' : HState)
    (h : runEvents s events = .ok s') (hs : RangeInv s) : RangeInv s' := by
  induction events generalizing s with
  | nil =>
    unfold runEvents at h
    cases h
    exact hs
  | cons e rest ih =>
    unfold runEvents at h
    split at h
    · exact Except.noConfusion h
    · rename_i s2 h2
      exact ih _ h (applyEvent_inv _ _ _ h2 hs)

theorem ratTrunc_scale_bounds (v : ℚ) (h0 : 0 ≤ v) (h1 : v ≤ 1) :
    0 ≤ ratTrunc (v * 128) ∧ ratTrunc (v * 128) ≤ 128 := by
  unfold ratTrunc
  rw [if_pos (by positivity)]
  constructor
  · exact Int.floor_nonneg.mpr (by positivity)
  · calc ⌊v * 128⌋ ≤ ⌊(128 : ℚ)⌋ := Int.floor_le_floor (by linarith)
    _ = 128 := by norm_num

/-- C2, amended.  Every entry of every note-on matrix returned by
scoreToPianoroll is an integer between 0 and 128 — the upper end 128,
not 127, is attained when the envelope reaches exactly 1 at a sounding
step — and every entry of every returned articulation matrix lies in
the interval [0, 1].  The external smoothing collaborator is modelled
as the identity (see smooth_dyn). -/
theorem C2_amended_range (events : List XEvent) (q L : Nat)
    (pr : List (String × (Nat → Nat → Int))) (ar : List (String × Mat))
    (h : scoreToPianoroll events q L = .ok (pr, ar)) :
    (∀ kv ∈ pr, ∀ t p : Nat, 0 ≤ kv.2 t p ∧ kv.2 t p ≤ 128) ∧
    (∀ kv ∈ ar, ∀ t p : Nat, 0 ≤ kv.2 t p ∧ kv.2 t p ≤ 1) := by
  unfold scoreToPianoroll at h
  split at h
  · exact Except.noConfusion h
  · rename_i s hrun
    have hs := runEvents_inv _ _ _ hrun (RangeInv_initState q L 128 false)
    injection h with h
    cases h
    constructor
    · intro kv hkv t p
      obtain ⟨kv0, hkv0, rfl⟩ := List.mem_map.mp hkv
      have hb := hs.2.2.2.1 kv0 hkv0
      exact ratTrunc_scale_bounds _ (hb t p).1 (hb t p).2
    · intro kv hkv t p
      exact hs.2.2.2.2 kv hkv t p

/-- The concrete output pair of the conversion of evFffCresc. -/
def c2Pair : List (String × (Nat → Nat → Int)) × List (String × Mat) :=
  match scoreToPianoroll evFffCresc 1 8 with
  | .ok pa => pa
  | .error _ => ([], [])

/-- C2, witness: the ranges hold on the concrete conversion of
evFffCresc, whose note-on matrix attains the value 128. -/
theorem C2_amended_range_witness :
    (∀ kv ∈ c2Pair.1, ∀ t p : Nat, 0 ≤ kv.2 t p ∧ kv.2 t p ≤ 128) ∧
    (∀ kv ∈ c2Pair.2, ∀ t p : Nat, 0 ≤ kv.2 t p ∧ kv.2 t p ≤ 1) :=
  C2_amended_range evFffCresc 1 8 c2Pair.1 c2Pair.2 rfl
